import Mathlib

/-! Health-Care appointment backend (server.js): shallow embedding.

The Express application of `server.js` is modelled as pure functions over an
explicit database value `Db` (the two Mongoose collections `User` and
`Appointment`).  Every route handler is a function
`Request → Db → Response × Db`; Express middleware is a function
`Request → Option Response` (`none` is the call of `next()`).

Modelling conventions, all read off the source:

* an `ObjectId` is a natural number; request parameters and body fields that
  Mongoose casts to `ObjectId` are carried already cast;
* a `Date` is its millisecond timestamp; a field written `new Date(date)` in the
  source is carried as `Option DateVal`, `none` being JavaScript's Invalid Date
  (absent or unparseable input), which Mongoose refuses to cast;
* strings stay strings: `role`, `status` and `timeSlot` are not closed types in
  the source, the schema `enum` and `required` validators are run by `save()`;
* a body field the source reads without a presence check of its own and that may be
  absent is an `Option` (`doctorId` and `date` of a booking, `status` of a status
  request); a stored appointment carries `status : Option String`, `none` being a
  document whose status field has been unset;
* every handler body sits in `try { ... } catch { 500 }`, so a thrown
  cast, validation or type error is the 500 response with the store untouched;
* `_id` and `createdAt` of a new document (driver-generated id, `Date.now`) are
  inputs of the creating handlers, gathered in `Env`.
-/

namespace HealthCare

/-! ## Data model (the two Mongoose schemas) -/

abbrev ObjectId := Nat

abbrev DateVal := Int

/-- A document of the `User` collection (`userSchema`). -/
structure User where
  _id : ObjectId
  username : String
  password : String
  role : String
  name : String
  email : String
  phone : Option String
  specialization : Option String
  createdAt : DateVal
deriving DecidableEq

/-- A document of the `Appointment` collection (`appointmentSchema`).  `status` is not a
required path: a stored document either carries a status string or, after a save that unset
the field, none. -/
structure Appointment where
  _id : ObjectId
  patientId : ObjectId
  doctorId : ObjectId
  date : DateVal
  timeSlot : String
  status : Option String
  notes : Option String
  createdAt : DateVal
deriving DecidableEq

/-- The persistent state: both collections, in insertion order. -/
structure Db where
  users : List User
  appointments : List Appointment
deriving DecidableEq

/-- A user document after `.select('-password')`. -/
structure PublicUser where
  _id : ObjectId
  username : String
  role : String
  name : String
  email : String
  phone : Option String
  specialization : Option String
  createdAt : DateVal
deriving DecidableEq

def selectNoPassword (u : User) : PublicUser :=
  { _id := u._id, username := u.username, role := u.role, name := u.name, email := u.email,
    phone := u.phone, specialization := u.specialization, createdAt := u.createdAt }

/-- The `enum` of `userSchema.role`. -/
def roleEnum : List String := ["patient", "doctor", "admin"]

/-- The `enum` of `appointmentSchema.status`. -/
def statusEnum : List String := ["scheduled", "completed", "cancelled"]

/-- Mongoose `required: true` on a String path: the value must be a non-empty string. -/
def requiredString (s : String) : Bool := s != ""

/-- Validation run by `save()` on a `User` document: required paths and the role enum. -/
def validUser (u : User) : Bool :=
  requiredString u.username && requiredString u.password && roleEnum.contains u.role &&
    requiredString u.name && requiredString u.email

/-- The enum validator of `appointmentSchema.status`.  The path is not required, and
Mongoose runs no validator but `required` on an undefined value: an absent status passes. -/
def validStatus (status : Option String) : Bool :=
  match status with
  | none => true
  | some s => statusEnum.contains s

/-- Validation run by `save()` on an `Appointment` document: the required `timeSlot` and
the status enum (`patientId`, `doctorId` and `date` are present by type; the handler that
builds the document answers for an absent or uncastable `doctorId` or `date`). -/
def validAppointment (a : Appointment) : Bool :=
  requiredString a.timeSlot && validStatus a.status

/-! ## Sessions, requests, responses -/

/-- The snapshot stored in `req.session.user` by the login route. -/
structure SessionUser where
  id : ObjectId
  username : String
  role : String
  name : String
  email : String
  specialization : Option String
deriving DecidableEq

/-- The object `req.session`; `user` is set only after a login. -/
structure Session where
  user : Option SessionUser
deriving DecidableEq

/-- What a handler reads of the Express request. -/
structure Request (ρ β : Type) where
  session : Option Session
  params : ρ
  body : β

/-- The JSON body of a response. -/
inductive Payload where
  | message (success : Option Bool) (message : String)
  | appointment (appointment : Appointment)
  | slots (availableSlots : List String)
  | users (users : List PublicUser)
  | doctorAdded (message : String) (doctor : User)
  | doctorUpdated (message : String) (doctor : PublicUser)
deriving DecidableEq

/-- An HTTP response: status code and JSON body (`res.json` alone is status 200). -/
structure Response where
  status : Nat
  body : Payload
deriving DecidableEq

/-- Driver-side inputs of a creating handler: the fresh `_id` and `Date.now()`. -/
structure Env where
  newId : ObjectId
  now : DateVal
deriving DecidableEq

abbrev Handler (ρ β : Type) := Request ρ β → Db → Response × Db

abbrev Middleware (ρ β : Type) := Request ρ β → Option Response

/-- The value of `req.session && req.session.user`. -/
def sessionUser {ρ β : Type} (req : Request ρ β) : Option SessionUser :=
  match req.session with
  | none => none
  | some s => s.user

def notAuthenticated : Response := ⟨401, .message none "Not authenticated"⟩

def forbidden : Response := ⟨403, .message none "Forbidden"⟩

/-- The catch branch `res.status(500).json({ success: false, message: 'Server error' })`. -/
def serverError : Response := ⟨500, .message (some false) "Server error"⟩

/-- The catch branch `res.status(500).json({ message: 'Server error' })`. -/
def serverErrorPlain : Response := ⟨500, .message none "Server error"⟩

/-! ## Session guard (`requireAuth`, `requireRole`) -/

def requireAuth {ρ β : Type} : Middleware ρ β := fun req =>
  match sessionUser req with
  | some _ => none
  | none => some notAuthenticated

def requireRole {ρ β : Type} (role : String) : Middleware ρ β := fun req =>
  match sessionUser req with
  | none => some notAuthenticated
  | some user =>
    if user.role != role then some forbidden
    else none

/-- Express route dispatch `app.METHOD(path, mw1, ..., handler)`: the middlewares run in
order, the first one that answers ends the request, otherwise the handler runs. -/
def route {ρ β : Type} (mws : List (Middleware ρ β)) (h : Handler ρ β) : Handler ρ β :=
  fun req db =>
    match mws with
    | [] => h req db
    | m :: rest =>
      match m req with
      | some res => (res, db)
      | none => route rest h req db

/-! ## Slot engine: `GET /api/appointments/available/:doctorId/:date` -/

def allSlots : List String :=
  ["09:00", "09:30", "10:00", "10:30", "11:00", "11:30",
   "14:00", "14:30", "15:00", "15:30", "16:00", "16:30"]

structure AvailableParams where
  doctorId : ObjectId
  date : Option DateVal

def getAvailable : Handler AvailableParams Unit := fun req db =>
  let doctorId := req.params.doctorId
  match req.params.date with
  | none => (serverErrorPlain, db)
  | some date =>
    let bookedAppointments := db.appointments.filter
      (fun apt => apt.doctorId == doctorId && apt.date == date && apt.status == some "scheduled")
    let bookedSlots := bookedAppointments.map (fun apt => apt.timeSlot)
    let availableSlots := allSlots.filter (fun slot => !bookedSlots.contains slot)
    (⟨200, .slots availableSlots⟩, db)

def getAvailableRoute : Handler AvailableParams Unit := route [] getAvailable

/-! ## Booking lifecycle: `POST /api/appointments`, `PUT /api/appointments/:id/status` -/

/-- The JSON body of a booking request.  The handler destructures `doctorId`, `date`,
`timeSlot` and `notes` only; `patientId` and `status` stand for fields a caller may add.
`doctorId` is `none` when the field is absent or is a value Mongoose cannot cast to an
`ObjectId`; `date` is `none` when `new Date(date)` is Invalid Date. -/
structure AppointmentBody where
  doctorId : Option ObjectId
  date : Option DateVal
  timeSlot : String
  notes : Option String
  patientId : Option ObjectId
  status : Option String

/-- The filter of the booking conflict query `Appointment.findOne`. -/
def slotTaken (doctorId : ObjectId) (date : DateVal) (timeSlot : String) (a : Appointment) : Bool :=
  a.doctorId == doctorId && a.date == date && a.timeSlot == timeSlot && a.status == some "scheduled"

def slotConflict : Response := ⟨400, .message (some false) "Time slot already booked"⟩

/-- The handler of `POST /api/appointments`.  No document is stored for a `doctorId` that is
absent or uncastable (`required: true` on the path, cast error in the query) nor for an
invalid date: the error is thrown inside the `try` and the catch answers 500. -/
def postAppointments (env : Env) : Handler Unit AppointmentBody := fun req db =>
  let timeSlot := req.body.timeSlot
  let notes := req.body.notes
  match sessionUser req with
  | none => (serverError, db)
  | some user =>
    let patientId := user.id
    match req.body.doctorId with
    | none => (serverError, db)
    | some doctorId =>
      match req.body.date with
      | none => (serverError, db)
      | some date =>
        match db.appointments.find? (slotTaken doctorId date timeSlot) with
        | some _ => (slotConflict, db)
        | none =>
          let appointment : Appointment :=
            { _id := env.newId, patientId := patientId, doctorId := doctorId, date := date,
              timeSlot := timeSlot, status := some "scheduled", notes := notes,
              createdAt := env.now }
          if validAppointment appointment then
            (⟨200, .appointment appointment⟩,
              { db with appointments := db.appointments ++ [appointment] })
          else (serverError, db)

def postAppointmentsRoute (env : Env) : Handler Unit AppointmentBody :=
  route [requireAuth, requireRole "patient"] (postAppointments env)

structure IdParams where
  id : ObjectId

/-- The JSON body of a status request; `status` is `none` when the field is absent. -/
structure StatusBody where
  status : Option String

/-- The write of `doc.save()` on a loaded document: the stored document with that `_id`
(the first one, `_id` being the collection key) is replaced. -/
def saveAppointment (apt : Appointment) : List Appointment → List Appointment
  | [] => []
  | a :: rest => if a._id == apt._id then apt :: rest else a :: saveAppointment apt rest

/-- The handler of `PUT /api/appointments/:id/status`.  `apt.save()` validates the modified
path `status` against the schema enum and rejects any other string; with the field absent
the assignment is `apt.status = undefined`, no validator runs, and the save unsets the stored
status. -/
def putAppointmentStatus : Handler IdParams StatusBody := fun req db =>
  let status := req.body.status
  match db.appointments.find? (fun a => a._id == req.params.id) with
  | none => (⟨404, .message none "Not found"⟩, db)
  | some apt =>
    match sessionUser req with
    | none => (serverError, db)
    | some user =>
      if user.role == "doctor" && apt.doctorId != user.id then (forbidden, db)
      else
        let apt := { apt with status := status }
        if validStatus apt.status then
          (⟨200, .appointment apt⟩,
            { db with appointments := saveAppointment apt db.appointments })
        else (serverError, db)

def putAppointmentStatusRoute : Handler IdParams StatusBody :=
  route [requireAuth, requireRole "doctor"] putAppointmentStatus

/-! ## Identity and doctor directory -/

/-- The JSON body of `POST /api/register` and `POST /api/doctors`; `none` is an absent field. -/
structure RegisterBody where
  username : Option String
  password : Option String
  name : Option String
  email : Option String
  phone : Option String
  role : Option String
  specialization : Option String

/-- JavaScript `!x` on an optional string: absent or empty. -/
def falsy (x : Option String) : Bool :=
  match x with
  | none => true
  | some s => s == ""

def postRegister (env : Env) : Handler Unit RegisterBody := fun req db =>
  let b := req.body
  if falsy b.username || falsy b.password || falsy b.name || falsy b.email || falsy b.role then
    (⟨400, .message (some false) "Missing required fields"⟩, db)
  else
    match b.username, b.password, b.name, b.email, b.role with
    | some username, some password, some name, some email, some role =>
      match db.users.find? (fun u => u.username == username) with
      | some _ => (⟨400, .message (some false) "Username already exists"⟩, db)
      | none =>
        let newUser : User :=
          { _id := env.newId, username := username, password := password, role := role,
            name := name, email := email, phone := b.phone,
            specialization := b.specialization, createdAt := env.now }
        if validUser newUser then
          (⟨200, .message (some true) "User registered successfully"⟩,
            { db with users := db.users ++ [newUser] })
        else (serverError, db)
    | _, _, _, _, _ => (serverError, db)

def postRegisterRoute (env : Env) : Handler Unit RegisterBody := route [] (postRegister env)

def postDoctors (env : Env) : Handler Unit RegisterBody := fun req db =>
  let b := req.body
  if falsy b.username || falsy b.password || falsy b.name || falsy b.email ||
      falsy b.specialization then
    (⟨400, .message (some false) "All fields are required"⟩, db)
  else
    match b.username, b.password, b.name, b.email with
    | some username, some password, some name, some email =>
      match db.users.find? (fun u => u.username == username) with
      | some _ => (⟨400, .message (some false) "Username already exists"⟩, db)
      | none =>
        let newDoctor : User :=
          { _id := env.newId, username := username, password := password, role := "doctor",
            name := name, email := email, phone := b.phone,
            specialization := b.specialization, createdAt := env.now }
        if validUser newDoctor then
          (⟨200, .doctorAdded "Doctor added successfully" newDoctor⟩,
            { db with users := db.users ++ [newDoctor] })
        else (serverError, db)
    | _, _, _, _ => (serverError, db)

def postDoctorsRoute (env : Env) : Handler Unit RegisterBody :=
  route [requireRole "admin"] (postDoctors env)

def deleteBlocked : Response :=
  ⟨400, .message (some false) "Cannot delete doctor with scheduled appointments"⟩

def deleteDoctor : Handler IdParams Unit := fun req db =>
  let doctorId := req.params.id
  match db.appointments.find? (fun a => a.doctorId == doctorId && a.status == some "scheduled") with
  | some _ => (deleteBlocked, db)
  | none =>
    match db.users.find? (fun u => u._id == doctorId) with
    | none => (⟨404, .message (some false) "Doctor not found"⟩, db)
    | some _ =>
      (⟨200, .message (some true) "Doctor deleted successfully"⟩,
        { db with users := db.users.eraseP (fun u => u._id == doctorId) })

def deleteDoctorRoute : Handler IdParams Unit := route [requireRole "admin"] deleteDoctor

/-- The JSON body of `PUT /api/doctors/:id`; the handler destructures `name`, `email`, `phone`
and `specialization` only, and an absent (undefined) field is left out of the update.
`username`, `role` and `password` stand for fields a caller may add. -/
structure DoctorUpdateBody where
  name : Option String
  email : Option String
  phone : Option String
  specialization : Option String
  username : Option String
  role : Option String
  password : Option String

def applyDoctorUpdate (b : DoctorUpdateBody) (u : User) : User :=
  { u with
    name := b.name.getD u.name
    email := b.email.getD u.email
    phone := match b.phone with
      | some p => some p
      | none => u.phone
    specialization := match b.specialization with
      | some s => some s
      | none => u.specialization }

/-- The write of `User.findByIdAndUpdate`: the first document with that `_id` is updated. -/
def updateUserById (id : ObjectId) (f : User → User) : List User → List User
  | [] => []
  | u :: rest => if u._id == id then f u :: rest else u :: updateUserById id f rest

def putDoctors : Handler IdParams DoctorUpdateBody := fun req db =>
  let doctorId := req.params.id
  match db.users.find? (fun u => u._id == doctorId) with
  | none => (⟨404, .message (some false) "Doctor not found"⟩, db)
  | some u =>
    (⟨200, .doctorUpdated "Doctor updated successfully"
        (selectNoPassword (applyDoctorUpdate req.body u))⟩,
      { db with users := updateUserById doctorId (applyDoctorUpdate req.body) db.users })

def putDoctorsRoute : Handler IdParams DoctorUpdateBody := route [requireRole "admin"] putDoctors

/-- The handler of `GET /api/users`. -/
def getUsers : Handler Unit Unit := fun _ db =>
  (⟨200, .users (db.users.map selectNoPassword)⟩, db)

def getUsersRoute : Handler Unit Unit := route [requireRole "admin"] getUsers

/-- The guard lists of the two read-only self-listing routes
`GET /api/appointments/me` and `GET /api/appointments/doctor/me`. -/
def getAppointmentsMeGuards {ρ β : Type} : List (Middleware ρ β) :=
  [requireAuth, requireRole "patient"]

def getAppointmentsDoctorMeGuards {ρ β : Type} : List (Middleware ρ β) :=
  [requireAuth, requireRole "doctor"]

/-! ## Sequential execution of the state-changing API -/

/-- One call of a state-changing route, with everything the route reads. -/
inductive Op where
  | register (env : Env) (req : Request Unit RegisterBody)
  | createDoctor (env : Env) (req : Request Unit RegisterBody)
  | deleteDoctor (req : Request IdParams Unit)
  | updateDoctor (req : Request IdParams DoctorUpdateBody)
  | createAppointment (env : Env) (req : Request Unit AppointmentBody)
  | updateStatus (req : Request IdParams StatusBody)

def step (db : Db) : Op → Response × Db
  | .register env req => postRegisterRoute env req db
  | .createDoctor env req => postDoctorsRoute env req db
  | .deleteDoctor req => deleteDoctorRoute req db
  | .updateDoctor req => putDoctorsRoute req db
  | .createAppointment env req => postAppointmentsRoute env req db
  | .updateStatus req => putAppointmentStatusRoute req db

/-- The store after a sequence of calls executed one after the other. -/
def run (db : Db) : List Op → Db
  | [] => db
  | op :: ops => run (step db op).2 ops

/-- The appointments of the store that hold slot `(doctorId, date, timeSlot)` as scheduled. -/
def scheduledAt (db : Db) (doctorId : ObjectId) (date : DateVal) (timeSlot : String) :
    List Appointment :=
  db.appointments.filter (slotTaken doctorId date timeSlot)

/-- Slot uniqueness: at most one scheduled appointment per `(doctorId, date, timeSlot)`. -/
def SlotUnique (db : Db) : Prop :=
  ∀ doctorId date timeSlot, (scheduledAt db doctorId date timeSlot).length ≤ 1

/-! ## Overlapping booking requests

Node runs a handler without interruption between two `await`s; the booking handler has two,
`await Appointment.findOne(...)` and `await appointment.save()`.  A request in flight is
therefore in one of three states, and a step executes one store operation atomically. -/

/-- A booking request in flight. -/
inductive BookingTask where
  | start (env : Env) (req : Request Unit AppointmentBody)
  | saving (appointment : Appointment)
  | done (res : Response)

/-- One atomic step of a booking request: from `start`, the guards and the conflict query;
from `saving`, the insert of the validated document. -/
def bookingStep (db : Db) : BookingTask → BookingTask × Db
  | .start env req =>
    match requireAuth req with
    | some res => (.done res, db)
    | none =>
      match requireRole "patient" req with
      | some res => (.done res, db)
      | none =>
        match sessionUser req with
        | none => (.done serverError, db)
        | some user =>
          match req.body.doctorId with
          | none => (.done serverError, db)
          | some doctorId =>
            match req.body.date with
            | none => (.done serverError, db)
            | some date =>
              match db.appointments.find? (slotTaken doctorId date req.body.timeSlot) with
              | some _ => (.done slotConflict, db)
              | none =>
                let appointment : Appointment :=
                  { _id := env.newId, patientId := user.id, doctorId := doctorId,
                    date := date, timeSlot := req.body.timeSlot, status := some "scheduled",
                    notes := req.body.notes, createdAt := env.now }
                if validAppointment appointment then (.saving appointment, db)
                else (.done serverError, db)
  | .saving appointment =>
    (.done ⟨200, .appointment appointment⟩,
      { db with appointments := db.appointments ++ [appointment] })
  | .done res => (.done res, db)

/-- Two requests in flight and a schedule: `false` lets the first request take its next
step, `true` the second. -/
def runTwo (db : Db) (t1 t2 : BookingTask) : List Bool → BookingTask × BookingTask × Db
  | [] => (t1, t2, db)
  | false :: rest => runTwo (bookingStep db t1).2 (bookingStep db t1).1 t2 rest
  | true :: rest => runTwo (bookingStep db t2).2 t1 (bookingStep db t2).1 rest

/-- The response of a finished request. -/
def BookingTask.response : BookingTask → Option Response
  | .done res => some res
  | _ => none

/-- The document the booking handler builds for session user `user`, request body `b`, cast
doctor id `doctorId` and valid date `date`. -/
def newAppointment (env : Env) (user : SessionUser) (b : AppointmentBody) (doctorId : ObjectId)
    (date : DateVal) : Appointment :=
  { _id := env.newId, patientId := user.id, doctorId := doctorId, date := date,
    timeSlot := b.timeSlot, status := some "scheduled", notes := b.notes,
    createdAt := env.now }

/-! ## Concrete data: the seeded users of `initializeData` and sample requests -/

def seedUsers : List User :=
  [ ⟨1, "admin", "admin123", "admin", "System Administrator", "admin@hospital.com",
      some "9999999999", none, 0⟩,
    ⟨2, "patient1", "123456", "patient", "Jane Doe", "jane@demo.com", some "1111111111", none, 0⟩,
    ⟨3, "patient2", "123456", "patient", "John Smith", "john@demo.com", some "2222222222",
      none, 0⟩,
    ⟨4, "dr_cardio", "123456", "doctor", "Dr. Sarah Wilson", "sarah@hospital.com",
      some "3333333333", some "Cardiology", 0⟩,
    ⟨5, "dr_derma", "123456", "doctor", "Dr. Michael Brown", "michael@hospital.com",
      some "4444444444", some "Dermatology", 0⟩,
    ⟨6, "dr_neuro", "123456", "doctor", "Dr. Emily Davis", "emily@hospital.com",
      some "5555555555", some "Neurology", 0⟩ ]

/-- The store right after `initializeData`: the six seeded users, no appointment. -/
def seedDb : Db := ⟨seedUsers, []⟩

/-- The session the login route stores for a user document. -/
def loginSession (u : User) : Session :=
  ⟨some ⟨u._id, u.username, u.role, u.name, u.email, u.specialization⟩⟩

def adminSession : Session :=
  loginSession ⟨1, "admin", "admin123", "admin", "System Administrator", "admin@hospital.com",
    some "9999999999", none, 0⟩

def patient1Session : Session :=
  loginSession ⟨2, "patient1", "123456", "patient", "Jane Doe", "jane@demo.com",
    some "1111111111", none, 0⟩

def patient2Session : Session :=
  loginSession ⟨3, "patient2", "123456", "patient", "John Smith", "john@demo.com",
    some "2222222222", none, 0⟩

def drCardioSession : Session :=
  loginSession ⟨4, "dr_cardio", "123456", "doctor", "Dr. Sarah Wilson", "sarah@hospital.com",
    some "3333333333", some "Cardiology", 0⟩

def drDermaSession : Session :=
  loginSession ⟨5, "dr_derma", "123456", "doctor", "Dr. Michael Brown", "michael@hospital.com",
    some "4444444444", some "Dermatology", 0⟩

/-- Timestamp of 2025-06-01T00:00:00Z. -/
def june1 : DateVal := 1748736000000

/-- A booking request of `session` for dr_cardio (id 4) on 2025-06-01 at `slot`. -/
def bookReq (session : Session) (slot : String) : Request Unit AppointmentBody :=
  ⟨some session, (), ⟨some 4, some june1, slot, none, none, none⟩⟩

/-- A status request of `session` for appointment `id`. -/
def statusReq (session : Session) (id : ObjectId) (status : String) :
    Request IdParams StatusBody :=
  ⟨some session, ⟨id⟩, ⟨some status⟩⟩

/-- A status request of `session` for appointment `id` whose body has no `status` field. -/
def statusReqNoField (session : Session) (id : ObjectId) : Request IdParams StatusBody :=
  ⟨some session, ⟨id⟩, ⟨none⟩⟩

/-- A booking request of `session` on 2025-06-01 at `slot` whose body has no `doctorId`. -/
def bookReqNoDoctor (session : Session) (slot : String) : Request Unit AppointmentBody :=
  ⟨some session, (), ⟨none, some june1, slot, none, none, none⟩⟩

def envA : Env := ⟨100, 1748000000000⟩

def envB : Env := ⟨101, 1748000001000⟩

/-- Book 09:00, cancel it, book 09:00 again, then set the cancelled record back to scheduled. -/
def rescheduleOps : List Op :=
  [ .createAppointment envA (bookReq patient1Session "09:00"),
    .updateStatus (statusReq drCardioSession 100 "cancelled"),
    .createAppointment envB (bookReq patient2Session "09:00"),
    .updateStatus (statusReq drCardioSession 100 "scheduled") ]

/-- The seeded store after patient1 booked dr_cardio at 09:00 on 2025-06-01. -/
def bookedDb : Db :=
  ⟨seedUsers, [⟨100, 2, 4, june1, "09:00", some "scheduled", none, 1748000000000⟩]⟩

/-- The same store after dr_cardio marked that appointment completed. -/
def completedDb : Db :=
  ⟨seedUsers, [⟨100, 2, 4, june1, "09:00", some "completed", none, 1748000000000⟩]⟩

/-- An open registration request asking for the role admin. -/
def registerAdminReq : Request Unit RegisterBody :=
  ⟨none, (), ⟨some "mallory", some "secret", some "Mallory", some "mallory@demo.com", none,
    some "admin", none⟩⟩

def deleteReq (session : Session) (id : ObjectId) : Request IdParams Unit :=
  ⟨some session, ⟨id⟩, ()⟩

/-! ## Registration outcomes and user identity -/

/-- The answer of the registration routes to a request with a missing required field. -/
def missingFields : Response := ⟨400, .message (some false) "Missing required fields"⟩

/-- The answer of the registration routes to a username that is already stored. -/
def usernameExists : Response := ⟨400, .message (some false) "Username already exists"⟩

/-- A body field that is missing or the empty string. -/
def absentOrEmpty (x : Option String) : Prop := x = none ∨ x = some ""

/-- The usernames of the store, in order. -/
def usernames (db : Db) : List String := db.users.map (fun u => u.username)

/-- The ids of the stored users, in order. -/
def userIds (db : Db) : List ObjectId := db.users.map (fun u => u._id)

/-- The id a call hands to a new user document, if the call is one that creates users. -/
def Op.newUserId : Op → Option ObjectId
  | .register env _ => some env.newId
  | .createDoctor env _ => some env.newId
  | _ => none

/-- A registration request without a password. -/
def registerNoPasswordReq : Request Unit RegisterBody :=
  ⟨none, (), ⟨some "newbie", none, some "New Bie", some "newbie@demo.com", none,
    some "patient", none⟩⟩

/-- A registration request for the seeded username patient1. -/
def registerDuplicateReq : Request Unit RegisterBody :=
  ⟨none, (), ⟨some "patient1", some "pw", some "Jane Two", some "jane2@demo.com", none,
    some "patient", none⟩⟩

/-- An admin request to create the doctor dr_ortho. -/
def createDoctorReq : Request Unit RegisterBody :=
  ⟨some adminSession, (), ⟨some "dr_ortho", some "123456", some "Dr. Olivia Reed",
    some "olivia@hospital.com", none, none, some "Orthopedics"⟩⟩

/-- An admin update of dr_cardio (id 4) whose body also carries username, role and password. -/
def updateWithIdentityReq : Request IdParams DoctorUpdateBody :=
  ⟨some adminSession, ⟨4⟩, ⟨some "Dr. S. Wilson", none, some "7777777777", none,
    some "root", some "admin", some "hacked"⟩⟩

/-- Store `db2` keeps the identity of the users of `db`: a user of `db2` that carries the id
of a user of `db` has that user's username, role and credential. -/
def IdentityKept (db db2 : Db) : Prop :=
  ∀ u ∈ db.users, ∀ v ∈ db2.users, v._id = u._id →
    v.username = u.username ∧ v.role = u.role ∧ v.password = u.password

end HealthCare

/-! # Theorems -/

namespace HealthCare

/-! ## Shared lemmas -/

theorem route_nil {ρ β : Type} (h : Handler ρ β) (req : Request ρ β) (db : Db) :
    route [] h req db = h req db := by
  simp [route]

theorem route_cons_some {ρ β : Type} (m : Middleware ρ β) (rest : List (Middleware ρ β))
    (h : Handler ρ β) (req : Request ρ β) (db : Db) (res : Response) (hm : m req = some res) :
    route (m :: rest) h req db = (res, db) := by
  simp [route, hm]

theorem route_cons_none {ρ β : Type} (m : Middleware ρ β) (rest : List (Middleware ρ β))
    (h : Handler ρ β) (req : Request ρ β) (db : Db) (hm : m req = none) :
    route (m :: rest) h req db = route rest h req db := by
  simp [route, hm]

theorem requireAuth_of_user {ρ β : Type} (req : Request ρ β) (u : SessionUser)
    (hu : sessionUser req = some u) : requireAuth req = none := by
  simp [requireAuth, hu]

theorem requireRole_of_role {ρ β : Type} (req : Request ρ β) (u : SessionUser)
    (hu : sessionUser req = some u) : requireRole u.role req = none := by
  simp [requireRole, hu]

theorem requireRole_of_other {ρ β : Type} (role : String) (req : Request ρ β) (u : SessionUser)
    (hu : sessionUser req = some u) (hne : u.role ≠ role) :
    requireRole role req = some forbidden := by
  simp [requireRole, hu, hne]

theorem requireRole_of_none {ρ β : Type} (role : String) (req : Request ρ β)
    (hu : sessionUser req = none) : requireRole role req = some notAuthenticated := by
  simp [requireRole, hu]

theorem slotTaken_iff (d : ObjectId) (t : DateVal) (s : String) (a : Appointment) :
    slotTaken d t s a = true ↔
      a.doctorId = d ∧ a.date = t ∧ a.timeSlot = s ∧ a.status = some "scheduled" := by
  simp [slotTaken, and_assoc]

theorem bookedSlots_contains_iff (l : List Appointment) (D : ObjectId) (T : DateVal)
    (slot : String) :
    ((l.filter (fun apt => apt.doctorId == D && apt.date == T && apt.status == some "scheduled")).map
        (fun apt => apt.timeSlot)).contains slot = true ↔
      ∃ a ∈ l, a.doctorId = D ∧ a.date = T ∧ a.timeSlot = slot ∧ a.status = some "scheduled" := by
  rw [List.contains, List.elem_iff, List.mem_map]
  constructor
  · rintro ⟨a, ha, hs⟩
    rw [List.mem_filter] at ha
    simp only [Bool.and_eq_true, beq_iff_eq] at ha
    exact ⟨a, ha.1, ha.2.1.1, ha.2.1.2, hs, ha.2.2⟩
  · rintro ⟨a, ha, hD, hT, hs, hst⟩
    refine ⟨a, ?_, hs⟩
    rw [List.mem_filter]
    simp [ha, hD, hT, hst]

/-! ## C2: available slots -/

/-- C2. For every store, doctor id `D` and (valid) date `T`, the available-slots route answers
200 with a list `slots` and leaves the store as it is; a slot is in `slots` exactly when it is
one of the twelve canonical slots and no appointment has `doctorId = D`, `date = T`, that time
slot and status scheduled; `slots` keeps the canonical order (it is a sublist of the canonical
list), has no duplicates and at most 12 elements, and is the whole canonical list when `D` has
no scheduled appointment on `T`. -/
theorem available_slots_spec (db : Db) (session : Option Session) (D : ObjectId) (T : DateVal) :
    ∃ slots : List String,
      getAvailableRoute ⟨session, ⟨D, some T⟩, ()⟩ db = (⟨200, .slots slots⟩, db) ∧
      (∀ slot, slot ∈ slots ↔ slot ∈ allSlots ∧
        ¬ ∃ a ∈ db.appointments,
            a.doctorId = D ∧ a.date = T ∧ a.timeSlot = slot ∧ a.status = some "scheduled") ∧
      slots.Sublist allSlots ∧ slots.Nodup ∧ slots.length ≤ 12 ∧
      allSlots = ["09:00", "09:30", "10:00", "10:30", "11:00", "11:30",
        "14:00", "14:30", "15:00", "15:30", "16:00", "16:30"] ∧
      ((¬ ∃ a ∈ db.appointments, a.doctorId = D ∧ a.date = T ∧ a.status = some "scheduled") →
        slots = allSlots) := by
  refine ⟨_, rfl, ?_, List.filter_sublist _, ?_, ?_, rfl, ?_⟩
  · intro slot
    rw [List.mem_filter, Bool.not_eq_true', Bool.eq_false_iff, Ne, bookedSlots_contains_iff]
  · exact (List.filter_sublist _).nodup (by decide)
  · exact (List.filter_sublist _).length_le
  · intro hnone
    rw [List.filter_eq_self]
    intro slot _
    rw [Bool.not_eq_true', Bool.eq_false_iff, Ne, bookedSlots_contains_iff]
    rintro ⟨a, ha, hD, hT, _, hst⟩
    exact hnone ⟨a, ha, hD, hT, hst⟩

/-- Witness of C2 at the empty store: all twelve canonical slots are free. -/
theorem available_slots_spec_witness :
    (getAvailableRoute ⟨none, ⟨4, some 0⟩, ()⟩ ⟨[], []⟩).1 = ⟨200, .slots allSlots⟩ := by
  obtain ⟨slots, hres, _, _, _, _, _, hall⟩ := available_slots_spec ⟨[], []⟩ none 4 0
  rw [hres, hall (by simp)]

/-! ## Booking: C3, C5 -/

theorem postAppointmentsRoute_patient (env : Env) (req : Request Unit AppointmentBody) (db : Db)
    (u : SessionUser) (hu : sessionUser req = some u) (hrole : u.role = "patient") :
    postAppointmentsRoute env req db = postAppointments env req db := by
  have h1 : requireAuth req = none := requireAuth_of_user req u hu
  have h2 : requireRole "patient" req = none := hrole ▸ requireRole_of_role req u hu
  rw [postAppointmentsRoute, route_cons_none _ _ _ _ _ h1, route_cons_none _ _ _ _ _ h2,
    route_nil]

theorem find?_slotTaken_isSome (l : List Appointment) (d : ObjectId) (t : DateVal) (s : String)
    (h : ∃ a ∈ l, a.doctorId = d ∧ a.date = t ∧ a.timeSlot = s ∧ a.status = some "scheduled") :
    ∃ a, l.find? (slotTaken d t s) = some a := by
  obtain ⟨a, ha, hcond⟩ := h
  cases hf : l.find? (slotTaken d t s) with
  | some b => exact ⟨b, rfl⟩
  | none =>
    rw [List.find?_eq_none] at hf
    exact absurd ((slotTaken_iff d t s a).2 hcond) (hf a ha)

theorem postAppointments_conflict (env : Env) (req : Request Unit AppointmentBody) (db : Db)
    (u : SessionUser) (D : ObjectId) (T : DateVal) (hu : sessionUser req = some u)
    (hD : req.body.doctorId = some D) (hT : req.body.date = some T)
    (h : ∃ a ∈ db.appointments, a.doctorId = D ∧ a.date = T ∧
      a.timeSlot = req.body.timeSlot ∧ a.status = some "scheduled") :
    postAppointments env req db = (slotConflict, db) := by
  obtain ⟨b, hb⟩ := find?_slotTaken_isSome _ _ _ _ h
  simp [postAppointments, hu, hD, hT, hb]

theorem postAppointments_free (env : Env) (req : Request Unit AppointmentBody) (db : Db)
    (u : SessionUser) (D : ObjectId) (T : DateVal) (hu : sessionUser req = some u)
    (hD : req.body.doctorId = some D) (hT : req.body.date = some T)
    (hslot : req.body.timeSlot ≠ "")
    (hfree : db.appointments.find? (slotTaken D T req.body.timeSlot) = none) :
    postAppointments env req db =
      (⟨200, .appointment (newAppointment env u req.body D T)⟩,
        { db with appointments := db.appointments ++ [newAppointment env u req.body D T] }) := by
  simp [postAppointments, hu, hD, hT, hfree, validAppointment, validStatus, requiredString,
    statusEnum, hslot, newAppointment]

/-- A booking body without a castable `doctorId` or without a valid date is answered 500 and
stores nothing. -/
theorem postAppointments_invalid (env : Env) (req : Request Unit AppointmentBody) (db : Db)
    (u : SessionUser) (hu : sessionUser req = some u)
    (hbad : req.body.doctorId = none ∨ req.body.date = none) :
    postAppointments env req db = (serverError, db) := by
  rcases hbad with hD | hT
  · simp [postAppointments, hu, hD]
  · cases hD : req.body.doctorId with
    | none => simp [postAppointments, hu, hD]
    | some D => simp [postAppointments, hu, hD, hT]

/-- Inversion of a successful booking: the guards passed, the doctor id and the date were
valid, the slot was free, and the store gained the new record at its end. -/
theorem postAppointmentsRoute_ok (env : Env) (req : Request Unit AppointmentBody) (db : Db)
    (hok : (postAppointmentsRoute env req db).1.status = 200) :
    ∃ u D T, sessionUser req = some u ∧ u.role = "patient" ∧ req.body.doctorId = some D ∧
      req.body.date = some T ∧ req.body.timeSlot ≠ "" ∧
      db.appointments.find? (slotTaken D T req.body.timeSlot) = none ∧
      postAppointmentsRoute env req db =
        (⟨200, .appointment (newAppointment env u req.body D T)⟩,
          { db with appointments :=
              db.appointments ++ [newAppointment env u req.body D T] }) := by
  cases hu : sessionUser req with
  | none =>
    have h := route_cons_some (requireAuth) [requireRole "patient"] (postAppointments env) req db
      notAuthenticated (by simp [requireAuth, hu])
    rw [postAppointmentsRoute, h] at hok
    simp [notAuthenticated] at hok
  | some u =>
    by_cases hrole : u.role = "patient"
    · rw [postAppointmentsRoute_patient env req db u hu hrole] at hok ⊢
      cases hD : req.body.doctorId with
      | none => simp [postAppointments, hu, hD, serverError] at hok
      | some D =>
        cases hT : req.body.date with
        | none => simp [postAppointments, hu, hD, hT, serverError] at hok
        | some T =>
          cases hf : db.appointments.find? (slotTaken D T req.body.timeSlot) with
          | some b => simp [postAppointments, hu, hD, hT, hf, slotConflict] at hok
          | none =>
            by_cases hslot : req.body.timeSlot = ""
            · have hf2 := hf
              rw [hslot] at hf2
              simp [postAppointments, hu, hD, hT, hf2, validAppointment, requiredString,
                hslot, serverError] at hok
            · exact ⟨u, D, T, rfl, hrole, rfl, rfl, hslot, hf,
                postAppointments_free env req db u D T hu hD hT hslot hf⟩
    · have h1 : requireAuth req = none := requireAuth_of_user req u hu
      have h2 := requireRole_of_other "patient" req u hu hrole
      rw [postAppointmentsRoute, route_cons_none _ _ _ _ _ h1,
        route_cons_some _ _ _ _ _ _ h2] at hok
      simp [forbidden] at hok

/-- C3. Whenever a scheduled appointment for the requested `(doctorId, date, timeSlot)` is in
the store, a patient's booking request is answered with the slot-conflict error and the store
is returned as it was.  In particular, when a first booking succeeds and a second patient then
books the same `(doctorId, date, timeSlot)`, the second call fails with the slot-conflict error,
writes nothing, and exactly one scheduled record exists for the slot before and after it. -/
theorem sequential_double_booking :
    (∀ (db : Db) (env : Env) (req : Request Unit AppointmentBody) (u : SessionUser)
        (D : ObjectId) (T : DateVal),
      sessionUser req = some u → u.role = "patient" →
      req.body.doctorId = some D → req.body.date = some T →
      (∃ a ∈ db.appointments, a.doctorId = D ∧ a.date = T ∧
        a.timeSlot = req.body.timeSlot ∧ a.status = some "scheduled") →
      postAppointmentsRoute env req db = (slotConflict, db)) ∧
    (∀ (db : Db) (env1 env2 : Env) (req1 req2 : Request Unit AppointmentBody) (p2 : SessionUser),
      sessionUser req2 = some p2 → p2.role = "patient" →
      req2.body.doctorId = req1.body.doctorId → req2.body.date = req1.body.date →
      req2.body.timeSlot = req1.body.timeSlot →
      (postAppointmentsRoute env1 req1 db).1.status = 200 →
      ∃ D T, req1.body.doctorId = some D ∧ req1.body.date = some T ∧
        postAppointmentsRoute env2 req2 (postAppointmentsRoute env1 req1 db).2 =
          (slotConflict, (postAppointmentsRoute env1 req1 db).2) ∧
        (scheduledAt (postAppointmentsRoute env1 req1 db).2
          D T req1.body.timeSlot).length = 1 ∧
        (scheduledAt (postAppointmentsRoute env2 req2 (postAppointmentsRoute env1 req1 db).2).2
          D T req1.body.timeSlot).length = 1) := by
  have general : ∀ (db : Db) (env : Env) (req : Request Unit AppointmentBody) (u : SessionUser)
      (D : ObjectId) (T : DateVal), sessionUser req = some u → u.role = "patient" →
      req.body.doctorId = some D → req.body.date = some T →
      (∃ a ∈ db.appointments, a.doctorId = D ∧ a.date = T ∧
        a.timeSlot = req.body.timeSlot ∧ a.status = some "scheduled") →
      postAppointmentsRoute env req db = (slotConflict, db) := by
    intro db env req u D T hu hrole hD hT h
    rw [postAppointmentsRoute_patient env req db u hu hrole]
    exact postAppointments_conflict env req db u D T hu hD hT h
  refine ⟨general, ?_⟩
  intro db env1 env2 req1 req2 p2 hp2 hrole2 hD hT hs hok
  obtain ⟨u, D, T, _, _, hD1, hT1, _, hfree, hres⟩ := postAppointmentsRoute_ok env1 req1 db hok
  have hcount : (scheduledAt (postAppointmentsRoute env1 req1 db).2
      D T req1.body.timeSlot).length = 1 := by
    rw [hres]
    have hnil : db.appointments.filter (slotTaken D T req1.body.timeSlot) = [] := by
      rw [List.filter_eq_nil_iff]
      exact List.find?_eq_none.1 hfree
    simp [scheduledAt, List.filter_append, hnil, slotTaken, newAppointment]
  have hsecond : postAppointmentsRoute env2 req2 (postAppointmentsRoute env1 req1 db).2 =
      (slotConflict, (postAppointmentsRoute env1 req1 db).2) := by
    apply general _ env2 req2 p2 D T hp2 hrole2 (hD.trans hD1) (hT.trans hT1)
    rw [hres]
    exact ⟨newAppointment env1 u req1.body D T, by simp, by simp [newAppointment],
      by simp [newAppointment], by simp [newAppointment, hs], by simp [newAppointment]⟩
  refine ⟨D, T, hD1, hT1, hsecond, hcount, ?_⟩
  rw [hsecond]
  exact hcount

/-- Witness of C3 on the seeded store: patient1 books dr_cardio at 09:00 on 2025-06-01, then
patient2 asks for the same slot. -/
theorem sequential_double_booking_witness :
    postAppointmentsRoute envB (bookReq patient2Session "09:00")
        (postAppointmentsRoute envA (bookReq patient1Session "09:00") seedDb).2 =
      (slotConflict, (postAppointmentsRoute envA (bookReq patient1Session "09:00") seedDb).2) ∧
    ∃ D T, (bookReq patient1Session "09:00").body.doctorId = some D ∧
      (bookReq patient1Session "09:00").body.date = some T ∧
      postAppointmentsRoute envB (bookReq patient2Session "09:00")
          (postAppointmentsRoute envA (bookReq patient1Session "09:00") seedDb).2 =
        (slotConflict, (postAppointmentsRoute envA (bookReq patient1Session "09:00") seedDb).2) ∧
      (scheduledAt (postAppointmentsRoute envA (bookReq patient1Session "09:00") seedDb).2
        D T (bookReq patient1Session "09:00").body.timeSlot).length = 1 ∧
      (scheduledAt (postAppointmentsRoute envB (bookReq patient2Session "09:00")
          (postAppointmentsRoute envA (bookReq patient1Session "09:00") seedDb).2).2
        D T (bookReq patient1Session "09:00").body.timeSlot).length = 1 :=
  ⟨sequential_double_booking.1 (postAppointmentsRoute envA (bookReq patient1Session "09:00") seedDb).2
      envB (bookReq patient2Session "09:00") _ 4 june1 rfl rfl rfl rfl
      ⟨⟨100, 2, 4, june1, "09:00", some "scheduled", none, 1748000000000⟩, by decide, rfl, rfl,
        rfl, rfl⟩,
    sequential_double_booking.2 seedDb envA envB (bookReq patient1Session "09:00")
      (bookReq patient2Session "09:00") _ rfl rfl rfl rfl rfl (by decide)⟩

/-- C5, as stated, fails: on the seeded store (no appointment at all, hence no conflicting
one) a patient's booking request with an empty `timeSlot` is answered 500 and adds nothing,
and so is a patient's booking request without `doctorId`. -/
theorem booking_postcondition_counterexample :
    sessionUser (bookReq patient1Session "") = some ⟨2, "patient1", "patient", "Jane Doe",
      "jane@demo.com", none⟩ ∧
    seedDb.appointments = [] ∧
    postAppointmentsRoute envA (bookReq patient1Session "") seedDb = (serverError, seedDb) ∧
    (postAppointmentsRoute envA (bookReq patient1Session "") seedDb).2.appointments.length =
      seedDb.appointments.length ∧
    postAppointmentsRoute envA (bookReqNoDoctor patient1Session "09:00") seedDb =
      (serverError, seedDb) := by
  decide

/-- C5 (amended). For every patient session and every request body that carries a `doctorId`
castable to an id, a valid date, a non-empty `timeSlot` string and notes that are a string or
absent, when no scheduled appointment holds
the requested `(doctorId, date, timeSlot)`, the booking route answers 200 with a record `a`,
appends exactly `a` to the appointments and leaves users and existing appointments as they
were; `a` has status scheduled, `doctorId`, `date`, `timeSlot` and `notes` of the request, and
`patientId` equal to the session user's id.  Whatever `patientId` or `status` the body
carries, the outcome is the same.  A patient's body without a castable `doctorId` or without a
valid date is answered 500 and stores nothing. -/
theorem booking_postcondition (db : Db) (env : Env) (req : Request Unit AppointmentBody)
    (u : SessionUser) (hu : sessionUser req = some u) (hrole : u.role = "patient") :
    (∀ (D : ObjectId) (T : DateVal), req.body.doctorId = some D → req.body.date = some T →
      req.body.timeSlot ≠ "" →
      (¬ ∃ a ∈ db.appointments, a.doctorId = D ∧ a.date = T ∧
        a.timeSlot = req.body.timeSlot ∧ a.status = some "scheduled") →
      ∃ a : Appointment,
        postAppointmentsRoute env req db =
          (⟨200, .appointment a⟩,
            { users := db.users, appointments := db.appointments ++ [a] }) ∧
        a.status = some "scheduled" ∧ a.doctorId = D ∧ a.date = T ∧
        a.timeSlot = req.body.timeSlot ∧ a.notes = req.body.notes ∧ a.patientId = u.id ∧
        a._id = env.newId ∧ a.createdAt = env.now) ∧
    (∀ (pid : Option ObjectId) (st : Option String),
      postAppointmentsRoute env
          { req with body := { req.body with patientId := pid, status := st } } db =
        postAppointmentsRoute env req db) ∧
    ((req.body.doctorId = none ∨ req.body.date = none) →
      postAppointmentsRoute env req db = (serverError, db)) := by
  refine ⟨?_, ?_, ?_⟩
  · intro D T hD hT hslot hfree
    have hfind : db.appointments.find? (slotTaken D T req.body.timeSlot) = none := by
      rw [List.find?_eq_none]
      intro a ha htaken
      exact hfree ⟨a, ha, (slotTaken_iff _ _ _ a).1 htaken⟩
    refine ⟨newAppointment env u req.body D T, ?_, rfl, rfl, rfl, rfl, rfl, rfl, rfl, rfl⟩
    rw [postAppointmentsRoute_patient env req db u hu hrole]
    exact postAppointments_free env req db u D T hu hD hT hslot hfind
  · intro pid st
    rfl
  · intro hbad
    rw [postAppointmentsRoute_patient env req db u hu hrole]
    exact postAppointments_invalid env req db u hu hbad

/-- Witness of C5 (amended): patient1 books dr_cardio at 09:00 on the seeded store, and
patient1's request without `doctorId` is answered 500. -/
theorem booking_postcondition_witness :
    (∃ a : Appointment,
      postAppointmentsRoute envA (bookReq patient1Session "09:00") seedDb =
        (⟨200, .appointment a⟩,
          { users := seedDb.users, appointments := seedDb.appointments ++ [a] }) ∧
      a.status = some "scheduled" ∧ a.patientId = 2 ∧ a.doctorId = 4) ∧
    postAppointmentsRoute envA (bookReqNoDoctor patient1Session "09:00") seedDb =
      (serverError, seedDb) := by
  obtain ⟨a, h, hst, hd, _, _, _, hp, _, _⟩ :=
    (booking_postcondition seedDb envA (bookReq patient1Session "09:00")
      ⟨2, "patient1", "patient", "Jane Doe", "jane@demo.com", none⟩ rfl rfl).1 4 june1 rfl rfl
      (by decide) (by simp [seedDb])
  exact ⟨⟨a, h, hst, hp, hd⟩,
    (booking_postcondition seedDb envA (bookReqNoDoctor patient1Session "09:00")
      ⟨2, "patient1", "patient", "Jane Doe", "jane@demo.com", none⟩ rfl rfl).2.2
      (Or.inl rfl)⟩

/-! ## Frame lemmas: which collection a route can touch -/

theorem route_frame {ρ β : Type} (P : Db → Prop) (mws : List (Middleware ρ β)) (h : Handler ρ β)
    (req : Request ρ β) (db : Db) (hrefl : P db) (hh : P (h req db).2) :
    P (route mws h req db).2 := by
  induction mws with
  | nil => rw [route_nil]; exact hh
  | cons m rest ih =>
    cases hm : m req with
    | some res => rw [route_cons_some _ _ _ _ _ _ hm]; exact hrefl
    | none => rw [route_cons_none _ _ _ _ _ hm]; exact ih

theorem postRegister_appointments (env : Env) (req : Request Unit RegisterBody) (db : Db) :
    (postRegister env req db).2.appointments = db.appointments := by
  unfold postRegister
  dsimp only
  repeat' split
  all_goals rfl

theorem postDoctors_appointments (env : Env) (req : Request Unit RegisterBody) (db : Db) :
    (postDoctors env req db).2.appointments = db.appointments := by
  unfold postDoctors
  dsimp only
  repeat' split
  all_goals rfl

theorem deleteDoctor_appointments (req : Request IdParams Unit) (db : Db) :
    (deleteDoctor req db).2.appointments = db.appointments := by
  unfold deleteDoctor
  dsimp only
  repeat' split
  all_goals rfl

theorem putDoctors_appointments (req : Request IdParams DoctorUpdateBody) (db : Db) :
    (putDoctors req db).2.appointments = db.appointments := by
  unfold putDoctors
  dsimp only
  repeat' split
  all_goals rfl

/-- A route either is answered by one of its guards, the store untouched, or all guards
call `next()` and the handler's result is the route's result. -/
theorem route_eq {ρ β : Type} (mws : List (Middleware ρ β)) (h : Handler ρ β)
    (req : Request ρ β) (db : Db) :
    (∃ res, (∃ m ∈ mws, m req = some res) ∧ route mws h req db = (res, db)) ∨
    ((∀ m ∈ mws, m req = none) ∧ route mws h req db = h req db) := by
  induction mws with
  | nil => exact Or.inr ⟨by simp, route_nil h req db⟩
  | cons m rest ih =>
    cases hm : m req with
    | some res =>
      exact Or.inl ⟨res, ⟨m, by simp, hm⟩, route_cons_some _ _ _ _ _ _ hm⟩
    | none =>
      rw [route_cons_none _ _ _ _ _ hm]
      rcases ih with ⟨res, ⟨m2, hm2, hres⟩, heq⟩ | ⟨hall, heq⟩
      · exact Or.inl ⟨res, ⟨m2, by simp [hm2], hres⟩, heq⟩
      · refine Or.inr ⟨?_, heq⟩
        intro m2 hm2
        rcases List.mem_cons.1 hm2 with rfl | hin
        · exact hm
        · exact hall m2 hin

theorem requireRole_eq_none {ρ β : Type} (role : String) (req : Request ρ β)
    (h : requireRole role req = none) : ∃ u, sessionUser req = some u ∧ u.role = role := by
  unfold requireRole at h
  cases hu : sessionUser req with
  | none => simp [hu] at h
  | some u =>
    refine ⟨u, rfl, ?_⟩
    simp [hu] at h
    exact h

/-- Every booking call either leaves the store as it is or appends one scheduled record whose
slot was free. -/
theorem postAppointmentsRoute_cases (env : Env) (req : Request Unit AppointmentBody) (db : Db) :
    (postAppointmentsRoute env req db).2 = db ∨
    ∃ u D T, req.body.doctorId = some D ∧ req.body.date = some T ∧
      db.appointments.find? (slotTaken D T req.body.timeSlot) = none ∧
      (postAppointmentsRoute env req db).2 =
        { db with appointments := db.appointments ++ [newAppointment env u req.body D T] } := by
  by_cases hok : (postAppointmentsRoute env req db).1.status = 200
  · obtain ⟨u, D, T, _, _, hD, hT, _, hfree, hres⟩ := postAppointmentsRoute_ok env req db hok
    exact Or.inr ⟨u, D, T, hD, hT, hfree, by rw [hres]⟩
  · left
    rcases route_eq [requireAuth, requireRole "patient"] (postAppointments env) req db with
      ⟨res, _, heq⟩ | ⟨_, heq⟩
    · rw [postAppointmentsRoute, heq]
    · rw [postAppointmentsRoute, heq] at hok ⊢
      cases hu : sessionUser req with
      | none => simp [postAppointments, hu]
      | some u =>
        cases hD : req.body.doctorId with
        | none => simp [postAppointments, hu, hD]
        | some D =>
          cases hT : req.body.date with
          | none => simp [postAppointments, hu, hD, hT]
          | some T =>
            cases hf : db.appointments.find? (slotTaken D T req.body.timeSlot) with
            | some b => simp [postAppointments, hu, hD, hT, hf]
            | none =>
              by_cases hslot : req.body.timeSlot = ""
              · have hf2 := hf
                rw [hslot] at hf2
                simp [postAppointments, hu, hD, hT, hf2, validAppointment, requiredString,
                  hslot]
              · rw [postAppointments_free env req db u D T hu hD hT hslot hf] at hok
                exact absurd rfl hok

theorem validStatus_iff (status : Option String) :
    validStatus status = true ↔ status = none ∨ ∃ s, status = some s ∧ s ∈ statusEnum := by
  cases status with
  | none => simp [validStatus]
  | some s => simp [validStatus]

/-- Every status call either leaves the store as it is or, for the owning doctor and a status
that is absent or in the enum, rewrites the status of the record found by id. -/
theorem putAppointmentStatusRoute_cases (req : Request IdParams StatusBody) (db : Db) :
    (putAppointmentStatusRoute req db).2 = db ∨
    ∃ u a, sessionUser req = some u ∧ u.role = "doctor" ∧
      db.appointments.find? (fun x => x._id == req.params.id) = some a ∧
      a.doctorId = u.id ∧ validStatus req.body.status = true ∧
      putAppointmentStatusRoute req db =
        (⟨200, .appointment { a with status := req.body.status }⟩,
          { db with appointments :=
              saveAppointment { a with status := req.body.status } db.appointments }) := by
  rcases route_eq [requireAuth, requireRole "doctor"] putAppointmentStatus req db with
    ⟨res, _, heq⟩ | ⟨hall, heq⟩
  · left
    rw [putAppointmentStatusRoute, heq]
  · obtain ⟨u, hu, hrole⟩ := requireRole_eq_none "doctor" req (hall _ (by simp))
    rw [putAppointmentStatusRoute, heq]
    cases hf : db.appointments.find? (fun x => x._id == req.params.id) with
    | none => left; simp [putAppointmentStatus, hf]
    | some a =>
      by_cases hown : a.doctorId = u.id
      · by_cases hst : validStatus req.body.status = true
        · right
          refine ⟨u, a, hu, hrole, rfl, hown, hst, ?_⟩
          simp [putAppointmentStatus, hf, hu, hrole, hown, hst]
        · left
          simp [putAppointmentStatus, hf, hu, hrole, hown, hst]
      · left
        simp [putAppointmentStatus, hf, hu, hrole, hown]

/-! ## C1: slot uniqueness over sequences of calls -/

theorem slotTaken_of_not_scheduled (d : ObjectId) (t : DateVal) (s : String) (a : Appointment)
    (h : a.status ≠ some "scheduled") : slotTaken d t s a = false := by
  rw [Bool.eq_false_iff, Ne, slotTaken_iff]
  exact fun hc => h hc.2.2.2

theorem filter_saveAppointment_le (apt : Appointment) (hst : apt.status ≠ some "scheduled")
    (d : ObjectId) (t : DateVal) (s : String) (l : List Appointment) :
    ((saveAppointment apt l).filter (slotTaken d t s)).length ≤
      (l.filter (slotTaken d t s)).length := by
  induction l with
  | nil => simp [saveAppointment]
  | cons a rest ih =>
    by_cases hid : a._id = apt._id
    · simp only [saveAppointment, hid, beq_self_eq_true, if_true]
      rw [List.filter_cons_of_neg (by simp [slotTaken_of_not_scheduled d t s apt hst])]
      exact ((List.sublist_cons_self a rest).filter _).length_le
    · have hne : (a._id == apt._id) = false := by simpa using hid
      simp only [saveAppointment, hne]
      by_cases hta : slotTaken d t s a = true
      · simp only [Bool.false_eq_true, if_false, List.filter_cons_of_pos hta, List.length_cons]
        omega
      · simp only [Bool.false_eq_true, if_false, List.filter_cons_of_neg hta]
        exact ih

theorem slotUnique_of_appointments_eq (db db2 : Db) (h : db2.appointments = db.appointments)
    (hu : SlotUnique db) : SlotUnique db2 := by
  intro d t s
  have := hu d t s
  simpa [scheduledAt, h] using this

/-- Booking keeps slot uniqueness: the conflict query guards the insert. -/
theorem slotUnique_postAppointmentsRoute (env : Env) (req : Request Unit AppointmentBody)
    (db : Db) (hu : SlotUnique db) : SlotUnique (postAppointmentsRoute env req db).2 := by
  rcases postAppointmentsRoute_cases env req db with h | ⟨u, D, T, _, _, hfree, h⟩
  · rw [h]; exact hu
  · rw [h]
    intro d t s
    have hold := hu d t s
    simp only [scheduledAt, List.filter_append] at hold ⊢
    by_cases hnew : slotTaken d t s (newAppointment env u req.body D T) = true
    · obtain ⟨hd, ht, hs, _⟩ := (slotTaken_iff d t s _).1 hnew
      simp only [newAppointment] at hd ht hs
      subst hd ht hs
      have hnil : db.appointments.filter
          (slotTaken D T req.body.timeSlot) = [] := by
        rw [List.filter_eq_nil_iff]
        exact List.find?_eq_none.1 hfree
      simp [hnil, hnew]
    · simp [hnew]
      exact hold

/-- A status call that does not ask for `scheduled` keeps slot uniqueness. -/
theorem slotUnique_putAppointmentStatusRoute (req : Request IdParams StatusBody) (db : Db)
    (hst : req.body.status ≠ some "scheduled") (hu : SlotUnique db) :
    SlotUnique (putAppointmentStatusRoute req db).2 := by
  rcases putAppointmentStatusRoute_cases req db with h | ⟨u, a, _, _, _, _, _, h⟩
  · rw [h]; exact hu
  · rw [h]
    intro d t s
    exact le_trans (filter_saveAppointment_le _ hst d t s db.appointments) (hu d t s)

/-- Slot uniqueness is kept by every call of the state-changing API except a status call
that asks for `scheduled`. -/
theorem slotUnique_step (db : Db) (op : Op) (hu : SlotUnique db)
    (hop : ∀ req, op = .updateStatus req → req.body.status ≠ some "scheduled") :
    SlotUnique (step db op).2 := by
  cases op with
  | register env req =>
    exact slotUnique_of_appointments_eq db _
      (route_frame (fun d => d.appointments = db.appointments) _ _ req db rfl
        (postRegister_appointments env req db)) hu
  | createDoctor env req =>
    exact slotUnique_of_appointments_eq db _
      (route_frame (fun d => d.appointments = db.appointments) _ _ req db rfl
        (postDoctors_appointments env req db)) hu
  | deleteDoctor req =>
    exact slotUnique_of_appointments_eq db _
      (route_frame (fun d => d.appointments = db.appointments) _ _ req db rfl
        (deleteDoctor_appointments req db)) hu
  | updateDoctor req =>
    exact slotUnique_of_appointments_eq db _
      (route_frame (fun d => d.appointments = db.appointments) _ _ req db rfl
        (putDoctors_appointments req db)) hu
  | createAppointment env req => exact slotUnique_postAppointmentsRoute env req db hu
  | updateStatus req => exact slotUnique_putAppointmentStatusRoute req db (hop req rfl) hu

/-- Slot uniqueness is an invariant of every sequence of calls in which no status call asks
for `scheduled`. -/
theorem slotUnique_run (ops : List Op) (db : Db) (hu : SlotUnique db)
    (hops : ∀ op ∈ ops, ∀ req, op = .updateStatus req → req.body.status ≠ some "scheduled") :
    SlotUnique (run db ops) := by
  induction ops generalizing db with
  | nil => exact hu
  | cons op rest ih =>
    exact ih (step db op).2 (slotUnique_step db op hu (hops op (by simp)))
      (fun o ho => hops o (by simp [ho]))

/-- C1 fails on the code.  From the seeded store (no appointment, so slot uniqueness holds),
patient1 books dr_cardio at 09:00 on 2025-06-01, dr_cardio cancels that appointment, patient2
books the freed slot, and dr_cardio sets the cancelled appointment back to scheduled: all four
calls succeed and the store ends with two scheduled appointments for the same
`(doctorId, date, timeSlot)`. -/
theorem slot_uniqueness_broken_by_reschedule :
    SlotUnique seedDb ∧
    (run seedDb rescheduleOps).appointments =
      [⟨100, 2, 4, june1, "09:00", some "scheduled", none, 1748000000000⟩,
       ⟨101, 3, 4, june1, "09:00", some "scheduled", none, 1748000001000⟩] ∧
    (scheduledAt (run seedDb rescheduleOps) 4 june1 "09:00").length = 2 ∧
    ¬ SlotUnique (run seedDb rescheduleOps) := by
  have hrun : (run seedDb rescheduleOps).appointments =
      [⟨100, 2, 4, june1, "09:00", some "scheduled", none, 1748000000000⟩,
       ⟨101, 3, 4, june1, "09:00", some "scheduled", none, 1748000001000⟩] := by decide
  have hlen : (scheduledAt (run seedDb rescheduleOps) 4 june1 "09:00").length = 2 := by
    simp only [scheduledAt, hrun]
    decide
  refine ⟨?_, hrun, hlen, ?_⟩
  · intro d t s
    simp [scheduledAt, seedDb]
  · intro h
    have := h 4 june1 "09:00"
    omega

/-! ## C4: two overlapping booking requests -/

/-- A booking request that runs its two steps without another request in between behaves as
the route `postAppointmentsRoute`. -/
theorem bookingStep_alone (env : Env) (req : Request Unit AppointmentBody) (db : Db) :
    bookingStep (bookingStep db (.start env req)).2 (bookingStep db (.start env req)).1 =
      (.done (postAppointmentsRoute env req db).1, (postAppointmentsRoute env req db).2) := by
  cases hu : sessionUser req with
  | none =>
    simp [bookingStep, postAppointmentsRoute, route, requireAuth, hu]
  | some u =>
    by_cases hrole : u.role = "patient"
    · rw [postAppointmentsRoute_patient env req db u hu hrole]
      cases hD : req.body.doctorId with
      | none => simp [bookingStep, requireAuth, requireRole, postAppointments, hu, hrole, hD]
      | some D =>
        cases hT : req.body.date with
        | none =>
          simp [bookingStep, requireAuth, requireRole, postAppointments, hu, hrole, hD, hT]
        | some T =>
          cases hf : db.appointments.find? (slotTaken D T req.body.timeSlot) with
          | some b =>
            simp [bookingStep, requireAuth, requireRole, postAppointments, hu, hrole, hD, hT,
              hf]
          | none =>
            by_cases hv : validAppointment ⟨env.newId, u.id, D, T,
                req.body.timeSlot, some "scheduled", req.body.notes, env.now⟩ = true
            · simp [bookingStep, requireAuth, requireRole, postAppointments, hu, hrole, hD,
                hT, hf, hv]
            · simp [bookingStep, requireAuth, requireRole, postAppointments, hu, hrole, hD,
                hT, hf, hv]
    · simp [bookingStep, postAppointmentsRoute, route, requireAuth, requireRole, hu, hrole]

/-- C4 fails on the code.  On the seeded store, patient1 and patient2 both ask for dr_cardio at
09:00 on 2025-06-01.  When the two conflict queries run before either insert (schedule
first, second, first, second), both requests are answered 200 and the store holds two
scheduled appointments for the slot; when the requests do not overlap, the second one gets the
slot-conflict error. -/
theorem concurrent_booking_race :
    (runTwo seedDb (.start envA (bookReq patient1Session "09:00"))
        (.start envB (bookReq patient2Session "09:00")) [false, true, false, true]).1.response =
      some ⟨200, .appointment ⟨100, 2, 4, june1, "09:00", some "scheduled", none, 1748000000000⟩⟩ ∧
    (runTwo seedDb (.start envA (bookReq patient1Session "09:00"))
        (.start envB (bookReq patient2Session "09:00")) [false, true, false, true]).2.1.response =
      some ⟨200, .appointment ⟨101, 3, 4, june1, "09:00", some "scheduled", none, 1748000001000⟩⟩ ∧
    (scheduledAt (runTwo seedDb (.start envA (bookReq patient1Session "09:00"))
        (.start envB (bookReq patient2Session "09:00")) [false, true, false, true]).2.2
      4 june1 "09:00").length = 2 ∧
    (runTwo seedDb (.start envA (bookReq patient1Session "09:00"))
        (.start envB (bookReq patient2Session "09:00")) [false, false, true, true]).2.1.response =
      some slotConflict := by
  decide

/-! ## C6, C7: status transitions -/

theorem saveAppointment_split (id : ObjectId) (l : List Appointment) (a : Appointment)
    (hfind : l.find? (fun x => x._id == id) = some a) :
    ∃ pre post, l = pre ++ a :: post ∧ (∀ x ∈ pre, x._id ≠ id) ∧ a._id = id ∧
      ∀ apt : Appointment, apt._id = id → saveAppointment apt l = pre ++ apt :: post := by
  induction l with
  | nil => simp at hfind
  | cons b rest ih =>
    by_cases hb : b._id = id
    · have hba : b = a := by
        rw [List.find?_cons_of_pos _ (by simpa using hb)] at hfind
        exact Option.some.inj hfind
      subst hba
      refine ⟨[], rest, rfl, by simp, hb, ?_⟩
      intro apt hapt
      simp [saveAppointment, hb, hapt]
    · have hrest : rest.find? (fun x => x._id == id) = some a := by
        rw [List.find?_cons_of_neg _ (by simpa using hb)] at hfind
        exact hfind
      obtain ⟨pre, post, hl, hpre, ha, hsave⟩ := ih hrest
      refine ⟨b :: pre, post, by simp [hl], ?_, ha, ?_⟩
      · intro x hx
        rcases List.mem_cons.1 hx with rfl | hx
        · exact hb
        · exact hpre x hx
      · intro apt hapt
        have hne : (b._id == apt._id) = false := by simpa [hapt] using hb
        simp [saveAppointment, hne, hsave apt hapt]

/-- C6, as stated, fails: dr_cardio owns appointment 100 of the booked store, the ownership
check passes, but the requested status "banana" is refused by the schema enum: the answer is
500, no status is persisted and no updated record is returned. -/
theorem transition_ownership_counterexample :
    bookedDb.appointments.find? (fun x => x._id == (statusReq drCardioSession 100 "banana").params.id)
      = some ⟨100, 2, 4, june1, "09:00", some "scheduled", none, 1748000000000⟩ ∧
    sessionUser (statusReq drCardioSession 100 "banana") =
      some ⟨4, "dr_cardio", "doctor", "Dr. Sarah Wilson", "sarah@hospital.com",
        some "Cardiology"⟩ ∧
    putAppointmentStatusRoute (statusReq drCardioSession 100 "banana") bookedDb =
      (serverError, bookedDb) := by
  decide

theorem putAppointmentStatusRoute_doctor (db : Db) (req : Request IdParams StatusBody)
    (u : SessionUser) (hu : sessionUser req = some u) (hrole : u.role = "doctor") :
    putAppointmentStatusRoute req db = putAppointmentStatus req db := by
  have h1 : requireAuth req = none := requireAuth_of_user req u hu
  have h2 : requireRole "doctor" req = none := hrole ▸ requireRole_of_role req u hu
  rw [putAppointmentStatusRoute, route_cons_none _ _ _ _ _ h1, route_cons_none _ _ _ _ _ h2,
    route_nil]

theorem putAppointmentStatusRoute_owner (db : Db) (req : Request IdParams StatusBody)
    (u : SessionUser) (a : Appointment) (hu : sessionUser req = some u)
    (hrole : u.role = "doctor")
    (hfind : db.appointments.find? (fun x => x._id == req.params.id) = some a)
    (hown : a.doctorId = u.id)
    (hst : req.body.status = none ∨ ∃ s, req.body.status = some s ∧ s ∈ statusEnum) :
    putAppointmentStatusRoute req db =
      (⟨200, .appointment { a with status := req.body.status }⟩,
        { db with appointments :=
            saveAppointment { a with status := req.body.status } db.appointments }) := by
  rw [putAppointmentStatusRoute_doctor db req u hu hrole]
  have hv : validStatus req.body.status = true := (validStatus_iff _).2 hst
  simp [putAppointmentStatus, hfind, hu, hrole, hown, hv]

/-- C6 (amended). Let `a` be the appointment found for the requested id and let the caller be
a doctor session.  If the session user id differs from `a.doctorId`, the status route answers
403 Forbidden and returns the store unchanged, whatever the body carries.  If the session
user id equals `a.doctorId` and the body carries a status that is one of scheduled, completed,
cancelled, the route answers 200 with `a` carrying the new status and the store holds that
record in place of `a`, everything else as before; if the body carries no status at all, the
route answers 200 as well and the stored record loses its status.  If the session user id
equals `a.doctorId` and the body carries any other status string, the route answers 500 and
returns the store unchanged. -/
theorem transition_ownership (db : Db) (req : Request IdParams StatusBody) (u : SessionUser)
    (a : Appointment) (hu : sessionUser req = some u) (hrole : u.role = "doctor")
    (hfind : db.appointments.find? (fun x => x._id == req.params.id) = some a) :
    (a.doctorId ≠ u.id → putAppointmentStatusRoute req db = (forbidden, db)) ∧
    (a.doctorId = u.id →
      (req.body.status = none ∨ ∃ s, req.body.status = some s ∧ s ∈ statusEnum) →
      putAppointmentStatusRoute req db =
        (⟨200, .appointment { a with status := req.body.status }⟩,
          { db with appointments :=
              saveAppointment { a with status := req.body.status } db.appointments }) ∧
      ∃ pre post, db.appointments = pre ++ a :: post ∧ (∀ x ∈ pre, x._id ≠ req.params.id) ∧
        (putAppointmentStatusRoute req db).2 =
          { users := db.users,
            appointments := pre ++ { a with status := req.body.status } :: post }) ∧
    (a.doctorId = u.id → ∀ s, req.body.status = some s → s ∉ statusEnum →
      putAppointmentStatusRoute req db = (serverError, db)) := by
  have hroute := putAppointmentStatusRoute_doctor db req u hu hrole
  refine ⟨?_, ?_, ?_⟩
  · intro hown
    rw [hroute]
    simp [putAppointmentStatus, hfind, hu, hrole, hown]
  · intro hown hst
    have hres := putAppointmentStatusRoute_owner db req u a hu hrole hfind hown hst
    refine ⟨hres, ?_⟩
    obtain ⟨pre, post, hl, hpre, ha, hsave⟩ := saveAppointment_split _ _ _ hfind
    refine ⟨pre, post, hl, hpre, ?_⟩
    rw [hres, hsave { a with status := req.body.status } ha]
  · intro hown s hs hst
    rw [hroute]
    simp [putAppointmentStatus, hfind, hu, hrole, hown, hs, validStatus, hst]

/-- Witness of C6 (amended): dr_derma is refused on dr_cardio's appointment, dr_cardio
completes it, dr_cardio's request without a status unsets the stored status, and dr_cardio's
request for "banana" is answered 500. -/
theorem transition_ownership_witness :
    putAppointmentStatusRoute (statusReq drDermaSession 100 "completed") bookedDb =
      (forbidden, bookedDb) ∧
    (putAppointmentStatusRoute (statusReq drCardioSession 100 "completed") bookedDb).2 =
      completedDb ∧
    putAppointmentStatusRoute (statusReqNoField drCardioSession 100) bookedDb =
      (⟨200, .appointment ⟨100, 2, 4, june1, "09:00", none, none, 1748000000000⟩⟩,
        ⟨seedUsers, [⟨100, 2, 4, june1, "09:00", none, none, 1748000000000⟩]⟩) ∧
    putAppointmentStatusRoute (statusReq drCardioSession 100 "banana") bookedDb =
      (serverError, bookedDb) :=
  ⟨(transition_ownership bookedDb (statusReq drDermaSession 100 "completed") _ _ rfl rfl
      rfl).1 (by decide),
    by
      rw [((transition_ownership bookedDb (statusReq drCardioSession 100 "completed") _ _ rfl
        rfl rfl).2.1 (by decide) (Or.inr ⟨"completed", rfl, by decide⟩)).1]
      decide,
    by
      rw [((transition_ownership bookedDb (statusReqNoField drCardioSession 100) _ _ rfl
        rfl rfl).2.1 (by decide) (Or.inl rfl)).1]
      decide,
    (transition_ownership bookedDb (statusReq drCardioSession 100 "banana") _ _ rfl rfl
      rfl).2.2 (by decide) "banana" rfl (by decide)⟩

/-- C7, as stated, fails: appointment 100 of the store is completed, its doctor asks for
`scheduled`, and the route answers 200 with the appointment scheduled again. -/
theorem terminal_states_counterexample :
    completedDb.appointments =
      [⟨100, 2, 4, june1, "09:00", some "completed", none, 1748000000000⟩] ∧
    putAppointmentStatusRoute (statusReq drCardioSession 100 "scheduled") completedDb =
      (⟨200, .appointment ⟨100, 2, 4, june1, "09:00", some "scheduled", none,
          1748000000000⟩⟩,
        ⟨seedUsers, [⟨100, 2, 4, june1, "09:00", some "scheduled", none, 1748000000000⟩]⟩) := by
  decide

/-- C7 (amended). A call of the status route changes the store only when the caller is a
doctor session that owns the appointment found for the id and the body carries either a status
among scheduled, completed, cancelled or no status at all; the store then holds that
appointment with the requested status (without status when none was sent) in place of the old
record and is otherwise as before.  This happens for every such call whatever the current
status of the appointment, so completed and cancelled are not terminal.  Every other call of
the status route returns the store unchanged, and every other state-changing operation keeps
all existing appointment records as they are (it can only append). -/
theorem status_changes (db : Db) :
    (∀ req : Request IdParams StatusBody,
      (putAppointmentStatusRoute req db).2 = db ∨
      ∃ u a pre post, sessionUser req = some u ∧ u.role = "doctor" ∧ a.doctorId = u.id ∧
        a._id = req.params.id ∧
        (req.body.status = none ∨ ∃ s, req.body.status = some s ∧ s ∈ statusEnum) ∧
        db.appointments = pre ++ a :: post ∧ (∀ x ∈ pre, x._id ≠ req.params.id) ∧
        (putAppointmentStatusRoute req db).2 =
          { users := db.users,
            appointments := pre ++ { a with status := req.body.status } :: post }) ∧
    (∀ (req : Request IdParams StatusBody) (u : SessionUser) (a : Appointment),
      sessionUser req = some u → u.role = "doctor" →
      db.appointments.find? (fun x => x._id == req.params.id) = some a →
      a.doctorId = u.id →
      (req.body.status = none ∨ ∃ s, req.body.status = some s ∧ s ∈ statusEnum) →
      ∃ pre post, db.appointments = pre ++ a :: post ∧
        (putAppointmentStatusRoute req db).2.appointments =
          pre ++ { a with status := req.body.status } :: post) ∧
    (∀ op : Op, (∀ req, op ≠ .updateStatus req) →
      ∃ extra, (step db op).2.appointments = db.appointments ++ extra) := by
  refine ⟨?_, ?_, ?_⟩
  · intro req
    rcases putAppointmentStatusRoute_cases req db with h | ⟨u, a, hu, hrole, hfind, hown, hst, h⟩
    · exact Or.inl h
    · right
      obtain ⟨pre, post, hl, hpre, ha, hsave⟩ := saveAppointment_split _ _ _ hfind
      refine ⟨u, a, pre, post, hu, hrole, hown, ha, (validStatus_iff _).1 hst, hl, hpre, ?_⟩
      rw [h, hsave { a with status := req.body.status } ha]
  · intro req u a hu hrole hfind hown hst
    obtain ⟨pre, post, hl, _, ha, hsave⟩ := saveAppointment_split _ _ _ hfind
    refine ⟨pre, post, hl, ?_⟩
    rw [putAppointmentStatusRoute_owner db req u a hu hrole hfind hown hst,
      hsave { a with status := req.body.status } ha]
  · intro op hop
    cases op with
    | register env req =>
      exact ⟨[], by
        rw [List.append_nil]
        exact route_frame (fun d => d.appointments = db.appointments) _ _ req db rfl
          (postRegister_appointments env req db)⟩
    | createDoctor env req =>
      exact ⟨[], by
        rw [List.append_nil]
        exact route_frame (fun d => d.appointments = db.appointments) _ _ req db rfl
          (postDoctors_appointments env req db)⟩
    | deleteDoctor req =>
      exact ⟨[], by
        rw [List.append_nil]
        exact route_frame (fun d => d.appointments = db.appointments) _ _ req db rfl
          (deleteDoctor_appointments req db)⟩
    | updateDoctor req =>
      exact ⟨[], by
        rw [List.append_nil]
        exact route_frame (fun d => d.appointments = db.appointments) _ _ req db rfl
          (putDoctors_appointments req db)⟩
    | createAppointment env req =>
      rcases postAppointmentsRoute_cases env req db with h | ⟨u, D, T, _, _, _, h⟩
      · exact ⟨[], by simp [step, h]⟩
      · exact ⟨[newAppointment env u req.body D T], by simp [step, h]⟩
    | updateStatus req => exact absurd rfl (hop req)

/-- Witness of C7 (amended) on the store with the completed appointment 100: its doctor sets
it to cancelled, its doctor's request without a status removes the status, and a booking by
patient2 keeps the completed record. -/
theorem status_changes_witness :
    (∃ pre post,
      completedDb.appointments =
        pre ++ (⟨100, 2, 4, june1, "09:00", some "completed", none, 1748000000000⟩ :
          Appointment) :: post ∧
      (putAppointmentStatusRoute (statusReq drCardioSession 100 "cancelled")
          completedDb).2.appointments =
        pre ++ { (⟨100, 2, 4, june1, "09:00", some "completed", none, 1748000000000⟩ :
          Appointment) with
            status := (statusReq drCardioSession 100 "cancelled").body.status } :: post) ∧
    (∃ pre post,
      completedDb.appointments =
        pre ++ (⟨100, 2, 4, june1, "09:00", some "completed", none, 1748000000000⟩ :
          Appointment) :: post ∧
      (putAppointmentStatusRoute (statusReqNoField drCardioSession 100)
          completedDb).2.appointments =
        pre ++ { (⟨100, 2, 4, june1, "09:00", some "completed", none, 1748000000000⟩ :
          Appointment) with
            status := (statusReqNoField drCardioSession 100).body.status } :: post) ∧
    ∃ extra, (step completedDb (.createAppointment envB
      (bookReq patient2Session "09:00"))).2.appointments = completedDb.appointments ++ extra :=
  ⟨(status_changes completedDb).2.1 (statusReq drCardioSession 100 "cancelled") _ _ rfl rfl rfl
      rfl (Or.inr ⟨"cancelled", rfl, by decide⟩),
    (status_changes completedDb).2.1 (statusReqNoField drCardioSession 100) _ _ rfl rfl rfl
      rfl (Or.inl rfl),
    (status_changes completedDb).2.2 _ (fun _ h => Op.noConfusion h)⟩

/-! ## C8: session guard -/

/-- C8. For every request and required role `r`: `requireRole r` answers 401 exactly when the
request has no session user; with a session user it answers 403 exactly when the session's
role differs from `r`, and calls `next()` exactly when the role equals `r`.  A route guarded
by `requireRole r` returns the guard's answer with the store unchanged whatever its handler is
(the handler is not run), and is the handler's result when the guard passes.  There is no role
hierarchy: an admin session gets 403 and an unchanged store on the patient-only routes
(booking, own appointments) and on the doctor-only routes (status change, own appointments),
and a patient session gets 403 on the admin-only list of all users. -/
theorem session_guard :
    (∀ (ρ β : Type) (r : String) (req : Request ρ β),
      ((requireRole r req = some notAuthenticated) ↔ sessionUser req = none) ∧
      ∀ u, sessionUser req = some u →
        ((requireRole r req = some forbidden) ↔ u.role ≠ r) ∧
        ((requireRole r req = none) ↔ u.role = r)) ∧
    (∀ (ρ β : Type) (r : String) (h : Handler ρ β) (req : Request ρ β) (db : Db),
      (∀ res, requireRole r req = some res → route [requireRole r] h req db = (res, db)) ∧
      (requireRole r req = none → route [requireRole r] h req db = h req db)) ∧
    (∀ (s : SessionUser) (db : Db), s.role = "admin" →
      (∀ env req, sessionUser req = some s → postAppointmentsRoute env req db = (forbidden, db)) ∧
      (∀ req, sessionUser req = some s → putAppointmentStatusRoute req db = (forbidden, db)) ∧
      (∀ (ρ β : Type) (h : Handler ρ β) (req : Request ρ β), sessionUser req = some s →
        route getAppointmentsMeGuards h req db = (forbidden, db) ∧
        route getAppointmentsDoctorMeGuards h req db = (forbidden, db))) ∧
    (∀ (s : SessionUser) (db : Db), s.role = "patient" →
      ∀ req, sessionUser req = some s → getUsersRoute req db = (forbidden, db)) := by
  have two : ∀ (ρ β : Type) (r : String) (h : Handler ρ β) (req : Request ρ β) (db : Db)
      (s : SessionUser), sessionUser req = some s → s.role ≠ r →
      route [requireAuth, requireRole r] h req db = (forbidden, db) := by
    intro ρ β r h req db s hs hne
    rw [route_cons_none _ _ _ _ _ (requireAuth_of_user req s hs),
      route_cons_some _ _ _ _ _ _ (requireRole_of_other r req s hs hne)]
  refine ⟨?_, ?_, ?_, ?_⟩
  · intro ρ β r req
    constructor
    · cases hu : sessionUser req with
      | none => simp [requireRole, hu]
      | some u =>
        by_cases hr : u.role = r
        · simp [requireRole, hu, hr]
        · simp [requireRole, hu, hr, forbidden, notAuthenticated]
    · intro u hu
      by_cases hr : u.role = r
      · simp [requireRole, hu, hr]
      · simp [requireRole, hu, hr]
  · intro ρ β r h req db
    exact ⟨fun res hres => route_cons_some _ _ _ _ _ _ hres,
      fun hnone => by rw [route_cons_none _ _ _ _ _ hnone, route_nil]⟩
  · intro s db hrole
    have hp : s.role ≠ "patient" := by rw [hrole]; decide
    have hd : s.role ≠ "doctor" := by rw [hrole]; decide
    refine ⟨fun env req hs => two _ _ _ _ req db s hs hp,
      fun req hs => two _ _ _ _ req db s hs hd, ?_⟩
    intro ρ β h req hs
    exact ⟨two _ _ _ h req db s hs hp, two _ _ _ h req db s hs hd⟩
  · intro s db hrole req hs
    have ha : s.role ≠ "admin" := by rw [hrole]; decide
    rw [getUsersRoute, route_cons_some _ _ _ _ _ _ (requireRole_of_other "admin" req s hs ha)]

/-- Witness of C8: the seeded admin is refused on the booking route, the seeded patient1 on the
list of all users, and a request without session gets 401 from `requireRole`. -/
theorem session_guard_witness :
    postAppointmentsRoute envA (bookReq adminSession "09:00") seedDb = (forbidden, seedDb) ∧
    getUsersRoute ⟨some patient1Session, (), ()⟩ seedDb = (forbidden, seedDb) ∧
    route [requireRole "admin"] getUsers ⟨none, (), ()⟩ seedDb = (notAuthenticated, seedDb) :=
  ⟨(session_guard.2.2.1 _ seedDb rfl).1 envA (bookReq adminSession "09:00") rfl,
    session_guard.2.2.2 _ seedDb rfl ⟨some patient1Session, (), ()⟩ rfl,
    (session_guard.2.1 Unit Unit "admin" getUsers ⟨none, (), ()⟩ seedDb).1 notAuthenticated
      ((session_guard.1 Unit Unit "admin" ⟨none, (), ()⟩).1.2 rfl)⟩

/-! ## C9: open registration -/

/-- C9, as stated, fails: the open registration route, called without any session and with
role "admin" in the body, succeeds on the seeded store and adds an admin user. -/
theorem register_patients_only_counterexample :
    postRegisterRoute envA registerAdminReq seedDb =
      (⟨200, .message (some true) "User registered successfully"⟩,
        ⟨seedUsers ++ [⟨100, "mallory", "secret", "admin", "Mallory", "mallory@demo.com", none,
          none, 1748000000000⟩], []⟩) := by
  decide

/-- C9 (amended). For every store and every registration request that succeeds, exactly one
user record is appended, appointments are untouched, and the record's role is the role
supplied in the request body, one of patient, doctor, admin.  Conversely every request with
non-empty username, password, name and email, a username not yet in the store and a role among
patient, doctor, admin succeeds and creates a user of that role, admin and doctor included. -/
theorem register_role_from_body (db : Db) (env : Env) (req : Request Unit RegisterBody) :
    ((postRegisterRoute env req db).1.status = 200 →
      ∃ u : User, (postRegisterRoute env req db).2 =
          { users := db.users ++ [u], appointments := db.appointments } ∧
        req.body.role = some u.role ∧ u.role ∈ roleEnum ∧
        req.body.username = some u.username ∧ u._id = env.newId) ∧
    (∀ username password name email role,
      req.body.username = some username → req.body.password = some password →
      req.body.name = some name → req.body.email = some email → req.body.role = some role →
      username ≠ "" → password ≠ "" → name ≠ "" → email ≠ "" → role ∈ roleEnum →
      (∀ x ∈ db.users, x.username ≠ username) →
      postRegisterRoute env req db =
        (⟨200, .message (some true) "User registered successfully"⟩,
          { users := db.users ++ [⟨env.newId, username, password, role, name, email,
              req.body.phone, req.body.specialization, env.now⟩],
            appointments := db.appointments })) := by
  have suff : ∀ username password name email role,
      req.body.username = some username → req.body.password = some password →
      req.body.name = some name → req.body.email = some email → req.body.role = some role →
      username ≠ "" → password ≠ "" → name ≠ "" → email ≠ "" → role ∈ roleEnum →
      (∀ x ∈ db.users, x.username ≠ username) →
      postRegisterRoute env req db =
        (⟨200, .message (some true) "User registered successfully"⟩,
          { users := db.users ++ [⟨env.newId, username, password, role, name, email,
              req.body.phone, req.body.specialization, env.now⟩],
            appointments := db.appointments }) := by
    intro username password name email role hun hpw hn he hr h1 h2 h3 h4 hrole hfresh
    have hfind : db.users.find? (fun u => u.username == username) = none := by
      rw [List.find?_eq_none]
      intro x hx
      simpa using hfresh x hx
    have h5 : role ≠ "" := by
      intro h
      subst h
      simp [roleEnum] at hrole
    rw [postRegisterRoute, route_nil]
    simp [postRegister, hun, hpw, hn, he, hr, falsy, h1, h2, h3, h4, h5, hfind, validUser,
      requiredString, hrole]
  refine ⟨?_, suff⟩
  intro hok
  rcases hun : req.body.username with _ | username
  · simp [postRegisterRoute, route, postRegister, falsy, hun] at hok
  rcases hpw : req.body.password with _ | password
  · simp [postRegisterRoute, route, postRegister, falsy, hpw] at hok
  rcases hn : req.body.name with _ | name
  · simp [postRegisterRoute, route, postRegister, falsy, hn] at hok
  rcases he : req.body.email with _ | email
  · simp [postRegisterRoute, route, postRegister, falsy, he] at hok
  rcases hr : req.body.role with _ | role
  · simp [postRegisterRoute, route, postRegister, falsy, hr] at hok
  by_cases h1 : username = ""
  · simp [postRegisterRoute, route, postRegister, falsy, hun, h1] at hok
  by_cases h2 : password = ""
  · simp [postRegisterRoute, route, postRegister, falsy, hpw, h2] at hok
  by_cases h3 : name = ""
  · simp [postRegisterRoute, route, postRegister, falsy, hn, h3] at hok
  by_cases h4 : email = ""
  · simp [postRegisterRoute, route, postRegister, falsy, he, h4] at hok
  by_cases h5 : role = ""
  · simp [postRegisterRoute, route, postRegister, falsy, hr, h5] at hok
  cases hfind : db.users.find? (fun u => u.username == username) with
  | some x =>
    simp [postRegisterRoute, route, postRegister, falsy, hun, hpw, hn, he, hr, h1, h2, h3, h4,
      h5, hfind] at hok
  | none =>
    by_cases hrole : role ∈ roleEnum
    · have hfresh : ∀ x ∈ db.users, x.username ≠ username := by
        intro x hx
        simpa using List.find?_eq_none.1 hfind x hx
      exact ⟨_, by rw [suff username password name email role hun hpw hn he hr h1 h2 h3 h4
        hrole hfresh], rfl, hrole, rfl, rfl⟩
    · simp [postRegisterRoute, route, postRegister, falsy, hun, hpw, hn, he, hr, h1, h2, h3,
        h4, h5, hfind, validUser, requiredString, hrole, serverError] at hok

/-- Witness of C9 (amended): a registration with role "doctor" on the seeded store. -/
theorem register_role_from_body_witness :
    postRegisterRoute envB ⟨none, (), ⟨some "dr_who", some "tardis", some "The Doctor",
        some "who@demo.com", none, some "doctor", none⟩⟩ seedDb =
      (⟨200, .message (some true) "User registered successfully"⟩,
        { users := seedDb.users ++ [⟨envB.newId, "dr_who", "tardis", "doctor", "The Doctor",
            "who@demo.com", none, none, envB.now⟩],
          appointments := seedDb.appointments }) :=
  (register_role_from_body seedDb envB ⟨none, (), ⟨some "dr_who", some "tardis",
      some "The Doctor", some "who@demo.com", none, some "doctor", none⟩⟩).2
    "dr_who" "tardis" "The Doctor" "who@demo.com" "doctor" rfl rfl rfl rfl rfl
    (by decide) (by decide) (by decide) (by decide) (by decide) (by decide)

/-! ## C10: delete doctor -/

theorem deleteDoctorRoute_admin (req : Request IdParams Unit) (db : Db) (u : SessionUser)
    (hu : sessionUser req = some u) (hrole : u.role = "admin") :
    deleteDoctorRoute req db = deleteDoctor req db := by
  have h : requireRole "admin" req = none := hrole ▸ requireRole_of_role req u hu
  rw [deleteDoctorRoute, route_cons_none _ _ _ _ _ h, route_nil]

/-- C10. For every store, admin session and id `d`: the delete route answers with the
conflict error (400, "Cannot delete doctor with scheduled appointments") and returns users and
appointments unchanged if and only if some appointment has `doctorId = d` and status
scheduled.  When a user with id `d` exists and no appointment of `d` is scheduled (all are
completed or cancelled, or there is none), the route answers 200, removes exactly the user `d`
(the other users stay, in order) and keeps every appointment record. -/
theorem delete_doctor (db : Db) (req : Request IdParams Unit) (u : SessionUser)
    (hu : sessionUser req = some u) (hrole : u.role = "admin") :
    (((deleteDoctorRoute req db).1 = deleteBlocked ∧ (deleteDoctorRoute req db).2 = db) ↔
      ∃ a ∈ db.appointments, a.doctorId = req.params.id ∧ a.status = some "scheduled") ∧
    ((∃ x ∈ db.users, x._id = req.params.id) →
      (∀ a ∈ db.appointments, a.doctorId = req.params.id →
        a.status = some "completed" ∨ a.status = some "cancelled") →
      (deleteDoctorRoute req db).1 = ⟨200, .message (some true) "Doctor deleted successfully"⟩ ∧
      (deleteDoctorRoute req db).2.appointments = db.appointments ∧
      ∃ pre x post, db.users = pre ++ x :: post ∧ x._id = req.params.id ∧
        (∀ y ∈ pre, y._id ≠ req.params.id) ∧
        (deleteDoctorRoute req db).2.users = pre ++ post) := by
  rw [deleteDoctorRoute_admin req db u hu hrole]
  constructor
  · constructor
    · rintro ⟨hres, _⟩
      cases hf : db.appointments.find?
          (fun a => a.doctorId == req.params.id && a.status == some "scheduled") with
      | some a =>
        have hmem := List.mem_of_find?_eq_some hf
        have hp := List.find?_some hf
        simp only [Bool.and_eq_true, beq_iff_eq] at hp
        exact ⟨a, hmem, hp.1, hp.2⟩
      | none =>
        cases hfu : db.users.find? (fun x => x._id == req.params.id) with
        | none => simp [deleteDoctor, hf, hfu, deleteBlocked] at hres
        | some x => simp [deleteDoctor, hf, hfu, deleteBlocked] at hres
    · rintro ⟨a, ha, hd, hst⟩
      cases hf : db.appointments.find?
          (fun a => a.doctorId == req.params.id && a.status == some "scheduled") with
      | some b => simp [deleteDoctor, hf]
      | none =>
        rw [List.find?_eq_none] at hf
        exact absurd (by simp [hd, hst]) (hf a ha)
  · rintro ⟨x, hx, hxid⟩ hdone
    have hf : db.appointments.find?
        (fun a => a.doctorId == req.params.id && a.status == some "scheduled") = none := by
      rw [List.find?_eq_none]
      intro a ha hcond
      simp only [Bool.and_eq_true, beq_iff_eq] at hcond
      rcases hdone a ha hcond.1 with h | h
      · rw [hcond.2] at h; exact absurd h (by decide)
      · rw [hcond.2] at h; exact absurd h (by decide)
    obtain ⟨y, hy⟩ : ∃ y, db.users.find? (fun x => x._id == req.params.id) = some y := by
      cases hfu : db.users.find? (fun x => x._id == req.params.id) with
      | some y => exact ⟨y, rfl⟩
      | none =>
        rw [List.find?_eq_none] at hfu
        exact absurd (by simpa using hxid) (hfu x hx)
    obtain ⟨z, pre, post, hpre, hz, hl, herase⟩ :=
      List.exists_of_eraseP (p := fun x => x._id == req.params.id) hx (by simpa using hxid)
    refine ⟨by simp [deleteDoctor, hf, hy], by simp [deleteDoctor, hf, hy], pre, z, post, hl,
      by simpa using hz, ?_, ?_⟩
    · intro w hw
      simpa using hpre w hw
    · simp [deleteDoctor, hf, hy, herase]

/-- Witness of C10: on the store where dr_cardio's only appointment is completed the admin
deletes dr_cardio (id 4); on the store where it is scheduled the delete is refused. -/
theorem delete_doctor_witness :
    ((deleteDoctorRoute (deleteReq adminSession 4) completedDb).1 =
        ⟨200, .message (some true) "Doctor deleted successfully"⟩ ∧
      (deleteDoctorRoute (deleteReq adminSession 4) completedDb).2.appointments =
        completedDb.appointments ∧
      ∃ pre x post, completedDb.users = pre ++ x :: post ∧
        x._id = (deleteReq adminSession 4).params.id ∧
        (∀ y ∈ pre, y._id ≠ (deleteReq adminSession 4).params.id) ∧
        (deleteDoctorRoute (deleteReq adminSession 4) completedDb).2.users = pre ++ post) ∧
    ((deleteDoctorRoute (deleteReq adminSession 4) bookedDb).1 = deleteBlocked ∧
      (deleteDoctorRoute (deleteReq adminSession 4) bookedDb).2 = bookedDb) :=
  ⟨(delete_doctor completedDb (deleteReq adminSession 4) _ rfl rfl).2
      ⟨⟨4, "dr_cardio", "123456", "doctor", "Dr. Sarah Wilson", "sarah@hospital.com",
        some "3333333333", some "Cardiology", 0⟩, by decide, rfl⟩ (by decide),
    (delete_doctor bookedDb (deleteReq adminSession 4) _ rfl rfl).1.2
      ⟨⟨100, 2, 4, june1, "09:00", some "scheduled", none, 1748000000000⟩, by decide, rfl, rfl⟩⟩

/-! ## C11: registration rejection and username uniqueness -/

theorem falsy_iff (x : Option String) : falsy x = true ↔ absentOrEmpty x := by
  cases x with
  | none => simp [falsy, absentOrEmpty]
  | some s => simp [falsy, absentOrEmpty]

/-- The open registration handler leaves the store as it is or appends one user whose
username was not stored before. -/
theorem postRegister_cases (env : Env) (req : Request Unit RegisterBody) (db : Db) :
    (postRegister env req db).2 = db ∨
    ∃ u : User, (postRegister env req db).2 = { db with users := db.users ++ [u] } ∧
      db.users.find? (fun x => x.username == u.username) = none ∧ u._id = env.newId := by
  unfold postRegister
  dsimp only
  split
  · exact Or.inl rfl
  · split
    · split
      · exact Or.inl rfl
      · split
        · rename_i hfind _
          exact Or.inr ⟨_, rfl, hfind, rfl⟩
        · exact Or.inl rfl
    · exact Or.inl rfl

/-- The admin doctor-provisioning handler leaves the store as it is or appends one user whose
username was not stored before. -/
theorem postDoctors_cases (env : Env) (req : Request Unit RegisterBody) (db : Db) :
    (postDoctors env req db).2 = db ∨
    ∃ u : User, (postDoctors env req db).2 = { db with users := db.users ++ [u] } ∧
      db.users.find? (fun x => x.username == u.username) = none ∧ u._id = env.newId := by
  unfold postDoctors
  dsimp only
  split
  · exact Or.inl rfl
  · split
    · split
      · exact Or.inl rfl
      · split
        · rename_i hfind _
          exact Or.inr ⟨_, rfl, hfind, rfl⟩
        · exact Or.inl rfl
    · exact Or.inl rfl

theorem usernames_nodup_append (db : Db) (u : User) (hnd : (usernames db).Nodup)
    (hfind : db.users.find? (fun x => x.username == u.username) = none) :
    (usernames { db with users := db.users ++ [u] }).Nodup := by
  simp only [usernames, List.map_append, List.map_cons, List.map_nil] at hnd ⊢
  rw [List.nodup_append]
  refine ⟨hnd, List.nodup_singleton _, ?_⟩
  intro a ha hb
  rw [List.mem_singleton] at hb
  subst hb
  obtain ⟨x, hx, hxa⟩ := List.mem_map.1 ha
  have := List.find?_eq_none.1 hfind x hx
  simp [hxa] at this

/-- C11. For every store and registration request: if any of username, password, name, email
or role is missing or empty, the open registration route answers with the missing-fields error
and returns the store unchanged; otherwise, if a stored user has the requested username, it
answers with the username-exists error and returns the store unchanged.  The two answers are
different responses (same status 400, different messages), so the caller can tell them apart.
Consequently pairwise distinct usernames stay pairwise distinct across a call of the
registration route and across a call of the create-doctor route, whoever calls it. -/
theorem registration_rejection (db : Db) (env : Env) (req : Request Unit RegisterBody) :
    ((absentOrEmpty req.body.username ∨ absentOrEmpty req.body.password ∨
        absentOrEmpty req.body.name ∨ absentOrEmpty req.body.email ∨
        absentOrEmpty req.body.role) →
      postRegisterRoute env req db = (missingFields, db)) ∧
    (¬ (absentOrEmpty req.body.username ∨ absentOrEmpty req.body.password ∨
        absentOrEmpty req.body.name ∨ absentOrEmpty req.body.email ∨
        absentOrEmpty req.body.role) →
      (∃ x ∈ db.users, req.body.username = some x.username) →
      postRegisterRoute env req db = (usernameExists, db)) ∧
    missingFields ≠ usernameExists ∧
    ((usernames db).Nodup → (usernames (postRegisterRoute env req db).2).Nodup) ∧
    ((usernames db).Nodup → (usernames (postDoctorsRoute env req db).2).Nodup) := by
  have hfalsy : (falsy req.body.username || falsy req.body.password || falsy req.body.name ||
      falsy req.body.email || falsy req.body.role) = true ↔
      (absentOrEmpty req.body.username ∨ absentOrEmpty req.body.password ∨
        absentOrEmpty req.body.name ∨ absentOrEmpty req.body.email ∨
        absentOrEmpty req.body.role) := by
    simp only [Bool.or_eq_true, falsy_iff, or_assoc]
  refine ⟨?_, ?_, by decide, ?_, ?_⟩
  · intro hmiss
    rw [postRegisterRoute, route_nil, postRegister]
    dsimp only
    rw [if_pos (hfalsy.2 hmiss)]
    rfl
  · intro hpresent hdup
    obtain ⟨x, hx, hname⟩ := hdup
    have hnot := mt hfalsy.1 hpresent
    rw [postRegisterRoute, route_nil, postRegister]
    dsimp only
    rw [if_neg hnot]
    have hfind : ∃ y, db.users.find? (fun u => u.username == x.username) = some y := by
      cases hf : db.users.find? (fun u => u.username == x.username) with
      | some y => exact ⟨y, rfl⟩
      | none =>
        rw [List.find?_eq_none] at hf
        exact absurd (by simp) (hf x hx)
    obtain ⟨y, hy⟩ := hfind
    simp only [absentOrEmpty, not_or] at hpresent
    obtain ⟨_, hpw, hn, he, hr⟩ := hpresent
    rcases hpw2 : req.body.password with _ | password
    · exact absurd hpw2 hpw.1
    rcases hn2 : req.body.name with _ | name
    · exact absurd hn2 hn.1
    rcases he2 : req.body.email with _ | email
    · exact absurd he2 he.1
    rcases hr2 : req.body.role with _ | role
    · exact absurd hr2 hr.1
    simp [hname, hy, usernameExists]
  · intro hnd
    rw [postRegisterRoute, route_nil]
    rcases postRegister_cases env req db with h | ⟨u, h, hfind, _⟩
    · rw [h]; exact hnd
    · rw [h]; exact usernames_nodup_append db u hnd hfind
  · intro hnd
    rw [postDoctorsRoute]
    apply route_frame (fun d => (usernames d).Nodup) _ _ req db hnd
    rcases postDoctors_cases env req db with h | ⟨u, h, hfind, _⟩
    · rw [h]; exact hnd
    · rw [h]; exact usernames_nodup_append db u hnd hfind

/-- Witness of C11 on the seeded store: a request without password gets the missing-fields
error, a request for the stored username patient1 gets the username-exists error, and the
usernames stay pairwise distinct, also after the admin has created the doctor dr_ortho. -/
theorem registration_rejection_witness :
    postRegisterRoute envA registerNoPasswordReq seedDb = (missingFields, seedDb) ∧
    postRegisterRoute envA registerDuplicateReq seedDb = (usernameExists, seedDb) ∧
    (usernames (postRegisterRoute envA registerAdminReq seedDb).2).Nodup ∧
    (usernames (postDoctorsRoute envA registerAdminReq seedDb).2).Nodup ∧
    (usernames (postDoctorsRoute envA createDoctorReq seedDb).2).Nodup ∧
    usernames (postDoctorsRoute envA createDoctorReq seedDb).2 =
      ["admin", "patient1", "patient2", "dr_cardio", "dr_derma", "dr_neuro", "dr_ortho"] :=
  ⟨(registration_rejection seedDb envA registerNoPasswordReq).1
      (Or.inr (Or.inl (Or.inl rfl))),
    (registration_rejection seedDb envA registerDuplicateReq).2.1
      (by simp [absentOrEmpty, registerDuplicateReq])
      ⟨⟨2, "patient1", "123456", "patient", "Jane Doe", "jane@demo.com", some "1111111111",
        none, 0⟩, by decide, rfl⟩,
    (registration_rejection seedDb envA registerAdminReq).2.2.2.1 (by decide),
    (registration_rejection seedDb envA registerAdminReq).2.2.2.2 (by decide),
    (registration_rejection seedDb envA createDoctorReq).2.2.2.2 (by decide),
    by decide⟩

/-! ## C12: username, role and credential are never rewritten -/

theorem updateUserById_split (id : ObjectId) (f : User → User) (l : List User) (u : User)
    (hfind : l.find? (fun x => x._id == id) = some u) :
    ∃ pre post, l = pre ++ u :: post ∧ (∀ x ∈ pre, x._id ≠ id) ∧ u._id = id ∧
      updateUserById id f l = pre ++ f u :: post := by
  induction l with
  | nil => simp at hfind
  | cons b rest ih =>
    by_cases hb : b._id = id
    · have hbu : b = u := by
        rw [List.find?_cons_of_pos _ (by simpa using hb)] at hfind
        exact Option.some.inj hfind
      subst hbu
      exact ⟨[], rest, rfl, by simp, hb, by simp [updateUserById, hb]⟩
    · have hrest : rest.find? (fun x => x._id == id) = some u := by
        rw [List.find?_cons_of_neg _ (by simpa using hb)] at hfind
        exact hfind
      obtain ⟨pre, post, hl, hpre, hu, hupd⟩ := ih hrest
      refine ⟨b :: pre, post, by simp [hl], ?_, hu, ?_⟩
      · intro x hx
        rcases List.mem_cons.1 hx with rfl | hx
        · exact hb
        · exact hpre x hx
      · have hne : (b._id == id) = false := by simpa using hb
        simp [updateUserById, hne, hupd]

/-- The update handler leaves the store as it is or rewrites, in place, the profile fields of
the first user with the requested id. -/
theorem putDoctors_cases (req : Request IdParams DoctorUpdateBody) (db : Db) :
    (putDoctors req db).2 = db ∨
    ∃ pre u post, db.users = pre ++ u :: post ∧ u._id = req.params.id ∧
      (∀ x ∈ pre, x._id ≠ req.params.id) ∧
      (putDoctors req db).2 =
        { users := pre ++ applyDoctorUpdate req.body u :: post,
          appointments := db.appointments } := by
  cases hfind : db.users.find? (fun x => x._id == req.params.id) with
  | none => left; simp [putDoctors, hfind]
  | some u =>
    right
    obtain ⟨pre, post, hl, hpre, hu, hupd⟩ :=
      updateUserById_split req.params.id (applyDoctorUpdate req.body) db.users u hfind
    exact ⟨pre, u, post, hl, hu, hpre, by simp [putDoctors, hfind, hupd]⟩

/-- The delete handler leaves the users as they are or removes one of them. -/
theorem deleteDoctor_users_cases (req : Request IdParams Unit) (db : Db) :
    (deleteDoctor req db).2.users = db.users ∨
    ∃ pre x post, db.users = pre ++ x :: post ∧ (deleteDoctor req db).2.users = pre ++ post := by
  unfold deleteDoctor
  dsimp only
  split
  · exact Or.inl rfl
  · split
    · exact Or.inl rfl
    · rcases List.exists_or_eq_self_of_eraseP (fun u => u._id == req.params.id) db.users with
        h | ⟨x, pre, post, _, _, hl, he⟩
      · exact Or.inl h
      · exact Or.inr ⟨pre, x, post, hl, he⟩

/-- Equal ids mean equal records in a collection keyed by `_id`. -/
theorem eq_of_id_eq (db : Db) (hnd : (userIds db).Nodup) (u v : User) (hu : u ∈ db.users)
    (hv : v ∈ db.users) (hid : v._id = u._id) : v = u :=
  List.inj_on_of_nodup_map hnd hv hu hid

theorem identityKept_of (db db2 : Db) (hnd : (userIds db).Nodup)
    (h : ∀ v ∈ db2.users, v._id ∉ userIds db ∨
      ∃ w ∈ db.users, v._id = w._id ∧ v.username = w.username ∧ v.role = w.role ∧
        v.password = w.password) :
    IdentityKept db db2 := by
  intro u hu v hv hid
  rcases h v hv with hfresh | ⟨w, hw, hwid, hname, hrole, hpw⟩
  · exact absurd (List.mem_map.2 ⟨u, hu, hid.symm⟩) hfresh
  · have hwu : w = u := eq_of_id_eq db hnd u w hu hw (hwid.symm.trans hid)
    subst hwu
    exact ⟨hname, hrole, hpw⟩

theorem identityKept_of_users_eq (db db2 : Db) (hnd : (userIds db).Nodup)
    (h : db2.users = db.users) : IdentityKept db db2 := by
  apply identityKept_of db db2 hnd
  intro v hv
  rw [h] at hv
  exact Or.inr ⟨v, hv, rfl, rfl, rfl, rfl⟩

theorem identityKept_append (db : Db) (n : User) (hnd : (userIds db).Nodup)
    (hfresh : n._id ∉ userIds db) :
    IdentityKept db { db with users := db.users ++ [n] } := by
  apply identityKept_of db _ hnd
  intro v hv
  rcases List.mem_append.1 hv with hv | hv
  · exact Or.inr ⟨v, hv, rfl, rfl, rfl, rfl⟩
  · rw [List.mem_singleton] at hv
    subst hv
    exact Or.inl hfresh

/-- Every call of the state-changing API keeps the identity of the stored users, the store
being keyed by `_id` and new documents getting an unused id. -/
theorem identityKept_step (db : Db) (op : Op) (hnd : (userIds db).Nodup)
    (hfresh : ∀ id, op.newUserId = some id → id ∉ userIds db) :
    IdentityKept db (step db op).2 := by
  cases op with
  | register env req =>
    have hid : env.newId ∉ userIds db := hfresh env.newId rfl
    show IdentityKept db (postRegisterRoute env req db).2
    rw [postRegisterRoute, route_nil]
    rcases postRegister_cases env req db with h | ⟨n, h, _, hn⟩
    · rw [h]; exact identityKept_of_users_eq db db hnd rfl
    · rw [h]; exact identityKept_append db n hnd (hn ▸ hid)
  | createDoctor env req =>
    have hid : env.newId ∉ userIds db := hfresh env.newId rfl
    show IdentityKept db (postDoctorsRoute env req db).2
    rw [postDoctorsRoute]
    apply route_frame (fun d => IdentityKept db d) _ _ req db
      (identityKept_of_users_eq db db hnd rfl)
    rcases postDoctors_cases env req db with h | ⟨n, h, _, hn⟩
    · rw [h]; exact identityKept_of_users_eq db db hnd rfl
    · rw [h]; exact identityKept_append db n hnd (hn ▸ hid)
  | deleteDoctor req =>
    show IdentityKept db (deleteDoctorRoute req db).2
    rw [deleteDoctorRoute]
    apply route_frame (fun d => IdentityKept db d) _ _ req db
      (identityKept_of_users_eq db db hnd rfl)
    rcases deleteDoctor_users_cases req db with h | ⟨pre, x, post, hl, h⟩
    · exact identityKept_of_users_eq db _ hnd h
    · apply identityKept_of db _ hnd
      intro v hv
      rw [h] at hv
      refine Or.inr ⟨v, ?_, rfl, rfl, rfl, rfl⟩
      rw [hl]
      rcases List.mem_append.1 hv with hv | hv
      · exact List.mem_append_left _ hv
      · exact List.mem_append_right _ (List.mem_cons_of_mem _ hv)
  | updateDoctor req =>
    show IdentityKept db (putDoctorsRoute req db).2
    rw [putDoctorsRoute]
    apply route_frame (fun d => IdentityKept db d) _ _ req db
      (identityKept_of_users_eq db db hnd rfl)
    rcases putDoctors_cases req db with h | ⟨pre, u, post, hl, _, _, h⟩
    · rw [h]; exact identityKept_of_users_eq db db hnd rfl
    · rw [h]
      apply identityKept_of db _ hnd
      intro v hv
      have hv2 : v ∈ pre ++ applyDoctorUpdate req.body u :: post := hv
      rcases List.mem_append.1 hv2 with hv3 | hv3
      · exact Or.inr ⟨v, by rw [hl]; exact List.mem_append_left _ hv3, rfl, rfl, rfl, rfl⟩
      · rcases List.mem_cons.1 hv3 with hv4 | hv4
        · subst hv4
          exact Or.inr ⟨u, by rw [hl]; simp, rfl, rfl, rfl, rfl⟩
        · exact Or.inr ⟨v, by rw [hl]; simp [hv4], rfl, rfl, rfl, rfl⟩
  | createAppointment env req =>
    show IdentityKept db (postAppointmentsRoute env req db).2
    rcases postAppointmentsRoute_cases env req db with h | ⟨u, D, T, _, _, _, h⟩
    · rw [h]; exact identityKept_of_users_eq db db hnd rfl
    · rw [h]; exact identityKept_of_users_eq db _ hnd rfl
  | updateStatus req =>
    show IdentityKept db (putAppointmentStatusRoute req db).2
    rcases putAppointmentStatusRoute_cases req db with h | ⟨u, a, _, _, _, _, _, h⟩
    · rw [h]; exact identityKept_of_users_eq db db hnd rfl
    · rw [h]; exact identityKept_of_users_eq db _ hnd rfl

/-- C12. For every store keyed by `_id` and every call of the state-changing API (register,
create doctor, delete doctor, update doctor, book, change status; a creating call hands out an
unused id), every user present before and after the call has the same username, role and
credential as before.  A call of update-doctor either returns the store unchanged or replaces,
in place, the one targeted user by a record with the same `_id`, username, credential, role
and creation time (only name, email, phone and specialization can differ), every other user
and every appointment staying as it was; `username`, `role` or `password` fields in the body
make no difference.  The read-only routes return the store unchanged. -/
theorem identity_immutable (db : Db) :
    (∀ op : Op, (userIds db).Nodup →
      (∀ id, op.newUserId = some id → id ∉ userIds db) →
      ∀ u ∈ db.users, ∀ v ∈ (step db op).2.users, v._id = u._id →
        v.username = u.username ∧ v.role = u.role ∧ v.password = u.password) ∧
    (∀ req : Request IdParams DoctorUpdateBody,
      (putDoctorsRoute req db).2 = db ∨
      ∃ pre u v post, db.users = pre ++ u :: post ∧ u._id = req.params.id ∧
        (∀ x ∈ pre, x._id ≠ req.params.id) ∧
        v._id = u._id ∧ v.username = u.username ∧ v.password = u.password ∧
        v.role = u.role ∧ v.createdAt = u.createdAt ∧
        (putDoctorsRoute req db).2 =
          { users := pre ++ v :: post, appointments := db.appointments }) ∧
    (∀ (req : Request IdParams DoctorUpdateBody) (un ro pw : Option String),
      putDoctorsRoute
          { req with body := { req.body with username := un, role := ro, password := pw } } db =
        putDoctorsRoute req db) ∧
    (∀ req, (getUsersRoute req db).2 = db) ∧
    (∀ req, (getAvailableRoute req db).2 = db) := by
  refine ⟨fun op hnd hfresh => identityKept_step db op hnd hfresh, ?_, ?_, ?_, ?_⟩
  · intro req
    rw [putDoctorsRoute]
    apply route_frame (fun d => d = db ∨
      ∃ pre u v post, db.users = pre ++ u :: post ∧ u._id = req.params.id ∧
        (∀ x ∈ pre, x._id ≠ req.params.id) ∧
        v._id = u._id ∧ v.username = u.username ∧ v.password = u.password ∧
        v.role = u.role ∧ v.createdAt = u.createdAt ∧
        d = { users := pre ++ v :: post, appointments := db.appointments }) _ _ req db
      (Or.inl rfl)
    rcases putDoctors_cases req db with h | ⟨pre, u, post, hl, hu, hpre, h⟩
    · exact Or.inl h
    · exact Or.inr ⟨pre, u, applyDoctorUpdate req.body u, post, hl, hu, hpre, rfl, rfl, rfl,
        rfl, rfl, h⟩
  · intro req un ro pw
    rfl
  · intro req
    rw [getUsersRoute]
    exact route_frame (fun d => d = db) _ _ req db rfl rfl
  · intro req
    rw [getAvailableRoute, route_nil, getAvailable]
    dsimp only
    split <;> rfl

/-- Witness of C12 on the seeded store: the admin updates dr_cardio (id 4) with a body that
also carries username "root", role "admin" and password "hacked"; dr_cardio keeps username,
role and credential, and the stored record differs in name and phone only. -/
theorem identity_immutable_witness :
    (∀ u ∈ seedDb.users, ∀ v ∈ (step seedDb (.updateDoctor updateWithIdentityReq)).2.users,
      v._id = u._id → v.username = u.username ∧ v.role = u.role ∧ v.password = u.password) ∧
    (putDoctorsRoute updateWithIdentityReq seedDb).2.users.map
        (fun u => (u._id, u.username, u.role, u.password, u.name, u.phone)) =
      [(1, "admin", "admin", "admin123", "System Administrator", some "9999999999"),
       (2, "patient1", "patient", "123456", "Jane Doe", some "1111111111"),
       (3, "patient2", "patient", "123456", "John Smith", some "2222222222"),
       (4, "dr_cardio", "doctor", "123456", "Dr. S. Wilson", some "7777777777"),
       (5, "dr_derma", "doctor", "123456", "Dr. Michael Brown", some "4444444444"),
       (6, "dr_neuro", "doctor", "123456", "Dr. Emily Davis", some "5555555555")] :=
  ⟨(identity_immutable seedDb).1 (.updateDoctor updateWithIdentityReq) (by decide)
      (fun _ h => Option.noConfusion h),
    rfl⟩

end HealthCare
